import Mathlib

/-!
Verification of the live-tables backend Data Abstraction Layer.

This file shallowly embeds the query-construction and row-update code of the
repository (internal JSONB executor, the PostgreSQL / MySQL / MongoDB
adapters, the LQP builder, the rows service and the formula evaluator) and
proves or refutes the behavioural claims made by the natural-language
specification.  JavaScript values are modelled by the inductive type
`JsValue`, JavaScript numbers (only where the evaluator needs IEEE-style
infinities) by `JsNum`, and thrown exceptions by `Except String`.
-/

namespace LiveTables

/-- Single-quote character (ASCII 39), used when assembling SQL text. -/
def sq : String := (Char.ofNat 39).toString

/-- Left brace character (ASCII 123). -/
def lbrace : Char := Char.ofNat 123

/-- Right brace character (ASCII 125). -/
def rbrace : Char := Char.ofNat 125

/-- A JavaScript value as it appears in filter values and row data.
Numbers are restricted to integers here: every claim about the SQL builders
depends on values only through `Array.isArray`, array length and
`String(value)` rendering, which the integer fragment covers exactly. -/
inductive JsValue where
  | str (s : String)
  | int (n : Int)
  | bool (b : Bool)
  | null
  | arr (xs : List JsValue)
deriving Repr

mutual

/-- Decidable equality for `JsValue` (the nested list forces a hand-written
instance). -/
def jsValueDecEq : (a b : JsValue) → Decidable (a = b)
  | .str s1, .str s2 =>
    match decEq s1 s2 with
    | isTrue h => isTrue (by rw [h])
    | isFalse h => isFalse (by intro hc; cases hc; exact h rfl)
  | .int n1, .int n2 =>
    match decEq n1 n2 with
    | isTrue h => isTrue (by rw [h])
    | isFalse h => isFalse (by intro hc; cases hc; exact h rfl)
  | .bool b1, .bool b2 =>
    match decEq b1 b2 with
    | isTrue h => isTrue (by rw [h])
    | isFalse h => isFalse (by intro hc; cases hc; exact h rfl)
  | .null, .null => isTrue rfl
  | .arr xs, .arr ys =>
    match jsValueListDecEq xs ys with
    | isTrue h => isTrue (by rw [h])
    | isFalse h => isFalse (by intro hc; cases hc; exact h rfl)
  | .str _, .int _ => isFalse (by intro hc; cases hc)
  | .str _, .bool _ => isFalse (by intro hc; cases hc)
  | .str _, .null => isFalse (by intro hc; cases hc)
  | .str _, .arr _ => isFalse (by intro hc; cases hc)
  | .int _, .str _ => isFalse (by intro hc; cases hc)
  | .int _, .bool _ => isFalse (by intro hc; cases hc)
  | .int _, .null => isFalse (by intro hc; cases hc)
  | .int _, .arr _ => isFalse (by intro hc; cases hc)
  | .bool _, .str _ => isFalse (by intro hc; cases hc)
  | .bool _, .int _ => isFalse (by intro hc; cases hc)
  | .bool _, .null => isFalse (by intro hc; cases hc)
  | .bool _, .arr _ => isFalse (by intro hc; cases hc)
  | .null, .str _ => isFalse (by intro hc; cases hc)
  | .null, .int _ => isFalse (by intro hc; cases hc)
  | .null, .bool _ => isFalse (by intro hc; cases hc)
  | .null, .arr _ => isFalse (by intro hc; cases hc)
  | .arr _, .str _ => isFalse (by intro hc; cases hc)
  | .arr _, .int _ => isFalse (by intro hc; cases hc)
  | .arr _, .bool _ => isFalse (by intro hc; cases hc)
  | .arr _, .null => isFalse (by intro hc; cases hc)

/-- Decidable equality for lists of `JsValue`. -/
def jsValueListDecEq : (a b : List JsValue) → Decidable (a = b)
  | [], [] => isTrue rfl
  | [], _ :: _ => isFalse (by intro hc; cases hc)
  | _ :: _, [] => isFalse (by intro hc; cases hc)
  | x :: xs, y :: ys =>
    match jsValueDecEq x y with
    | isTrue h1 =>
      match jsValueListDecEq xs ys with
      | isTrue h2 => isTrue (by rw [h1, h2])
      | isFalse h2 => isFalse (by intro hc; cases hc; exact h2 rfl)
    | isFalse h1 => isFalse (by intro hc; cases hc; exact h1 rfl)

end

instance : DecidableEq JsValue := jsValueDecEq

instance {ε α : Type} [DecidableEq ε] [DecidableEq α] : DecidableEq (Except ε α) :=
  fun a b =>
    match a, b with
    | .ok x, .ok y =>
      match decEq x y with
      | isTrue h => isTrue (by rw [h])
      | isFalse h => isFalse (by intro hc; cases hc; exact h rfl)
    | .error x, .error y =>
      match decEq x y with
      | isTrue h => isTrue (by rw [h])
      | isFalse h => isFalse (by intro hc; cases hc; exact h rfl)
    | .ok _, .error _ => isFalse (by intro hc; cases hc)
    | .error _, .ok _ => isFalse (by intro hc; cases hc)

mutual

/-- How `String(v)` renders an array element inside `Array.prototype.join`:
like `String(v)` itself, except that `null` renders as the empty string. -/
def jsToStringElem : JsValue → String
  | .str s => s
  | .int n => toString n
  | .bool b => if b then ("true") else ("false")
  | .null => ("")
  | .arr xs => String.intercalate (",") (jsToStringElemList xs)

/-- Renders every element of a list. -/
def jsToStringElemList : List JsValue → List String
  | [] => []
  | v :: vs => jsToStringElem v :: jsToStringElemList vs

end

/-- JavaScript `String(value)` for the fragment above (arrays join with a
comma, as `Array.prototype.toString` does). -/
def jsToString : JsValue → String
  | .str s => s
  | .int n => toString n
  | .bool b => if b then ("true") else ("false")
  | .null => ("null")
  | .arr xs => String.intercalate (",") (jsToStringElemList xs)

/-- `Array.isArray(value)`. -/
def JsValue.isArr : JsValue → Bool
  | .arr _ => true
  | _ => false

/-- The `Array.isArray(value)` guard together with the array's elements:
`some` exactly when the value is an array. -/
def JsValue.asArr : JsValue → Option (List JsValue)
  | .arr xs => some xs
  | _ => none

/-- JavaScript `x || d` for an optional numeric field: `undefined` and `0`
are falsy, every other number is truthy. -/
def jsOr (x : Option Int) (d : Int) : Int :=
  match x with
  | some v => if v = 0 then d else v
  | none => d

/-- Positional PostgreSQL placeholder `$n`. -/
def ph (i : Nat) : String := ("$") ++ toString i

/-- Sort direction (shared by the DAL interfaces and the executor). -/
inductive SortDir where
  | asc | desc
deriving Repr, DecidableEq

/-- `direction.toUpperCase()`. -/
def SortDir.toUpper : SortDir → String
  | .asc => ("ASC")
  | .desc => ("DESC")

/-- `PaginationParams` of the LQP contract. -/
structure PaginationParams where
  limit : Option Int := none
  offset : Option Int := none
  cursor : Option String := none
deriving Repr, DecidableEq

/-! ## Internal execution engine (internal-db-executor.service.ts)

The executor defines its own copies of the LQP interfaces; they are embedded
here under the `Internal` namespace. -/

namespace Internal

/-- Column types of the internal store (column.entity). -/
inductive ColumnType where
  | TEXT_SHORT | TEXT_LONG | NUMBER_INT | NUMBER_DECIMAL | BOOLEAN | DATE | DATETIME
deriving Repr, DecidableEq

/-- The slice of `TableColumn` consulted by the executor. -/
structure TableColumn where
  name : String
  physicalColumnName : String
  type : ColumnType
deriving Repr, DecidableEq

/-- Filter operators of the executor-local `FilterExpression`. -/
inductive FilterOp where
  | eq | ne | gt | gte | lt | lte | like | isIn | between
deriving Repr, DecidableEq

/-- Executor-local `FilterExpression` (always a leaf). -/
structure FilterExpression where
  field : String
  operator : FilterOp
  value : JsValue
deriving Repr, DecidableEq

/-- Executor-local `SortExpression`. -/
structure SortExpression where
  field : String
  direction : SortDir
deriving Repr, DecidableEq

/-- Source kinds. -/
inductive SourceType where
  | internal_table | external_connection
deriving Repr, DecidableEq

/-- Executor-local LQP source. -/
structure Source where
  type : SourceType
  tableId : Option String := none
  connectionId : Option String := none
deriving Repr, DecidableEq

/-- Executor-local `LogicalQueryPlan`. -/
structure Lqp where
  source : Source
  filters : Option (List FilterExpression) := none
  sorts : Option (List SortExpression) := none
  pagination : Option PaginationParams := none
deriving Repr, DecidableEq

/-- `columns.find(col => col.name === field || col.physicalColumnName === field)`. -/
def findColumn (columns : List TableColumn) (field : String) : Option TableColumn :=
  columns.find? fun col => col.name = field || col.physicalColumnName = field

/-- `data->>'fieldName'` -/
def condText (fieldName : String) : String :=
  ("data->>") ++ sq ++ fieldName ++ sq

/-- `(data->>'fieldName')::numeric` -/
def condNum (fieldName : String) : String :=
  ("(data->>") ++ sq ++ fieldName ++ sq ++ (")::numeric")

/-- `(data->>'fieldName')::timestamp` -/
def condTs (fieldName : String) : String :=
  ("(data->>") ++ sq ++ fieldName ++ sq ++ (")::timestamp")

/-- `(data->>'fieldName')::boolean` -/
def condBool (fieldName : String) : String :=
  ("(data->>") ++ sq ++ fieldName ++ sq ++ (")::boolean")

/-- Is the column numeric (NUMBER_INT / NUMBER_DECIMAL)? -/
def isNumericType (t : ColumnType) : Bool :=
  t = ColumnType.NUMBER_INT || t = ColumnType.NUMBER_DECIMAL

/-- Is the column a date (DATE / DATETIME)? -/
def isDateType (t : ColumnType) : Bool :=
  t = ColumnType.DATE || t = ColumnType.DATETIME

/-- The casted left-hand side used by `gt/gte/lt/lte/between` comparisons. -/
def castSide (fieldType : ColumnType) (fieldName : String) : String :=
  if isNumericType fieldType then condNum fieldName
  else if isDateType fieldType then condTs fieldName
  else condText fieldName

/-- `applyJsonbFilters`: walks the filter list, skipping fields that match no
column, and emits one SQL condition plus bound parameters per kept leaf.
`paramIndex` threads exactly as the imperative counter does. -/
def applyJsonbFilters (filters : List FilterExpression) (columns : List TableColumn)
    (paramIndex : Nat) : List String × List JsValue :=
  match filters with
  | [] => ([], [])
  | filter :: rest =>
    match findColumn columns filter.field with
    | none => applyJsonbFilters rest columns paramIndex
    | some column =>
      let fieldName := column.physicalColumnName
      let fieldType := column.type
      match filter.operator with
      | .eq =>
        let c := condText fieldName ++ (" = ") ++ ph paramIndex
        let r := applyJsonbFilters rest columns (paramIndex + 1)
        (c :: r.1, JsValue.str (jsToString filter.value) :: r.2)
      | .ne =>
        let c := condText fieldName ++ (" != ") ++ ph paramIndex
        let r := applyJsonbFilters rest columns (paramIndex + 1)
        (c :: r.1, JsValue.str (jsToString filter.value) :: r.2)
      | .gt =>
        let c := castSide fieldType fieldName ++ (" > ") ++ ph paramIndex
        let r := applyJsonbFilters rest columns (paramIndex + 1)
        (c :: r.1, filter.value :: r.2)
      | .gte =>
        let c := castSide fieldType fieldName ++ (" >= ") ++ ph paramIndex
        let r := applyJsonbFilters rest columns (paramIndex + 1)
        (c :: r.1, filter.value :: r.2)
      | .lt =>
        let c := castSide fieldType fieldName ++ (" < ") ++ ph paramIndex
        let r := applyJsonbFilters rest columns (paramIndex + 1)
        (c :: r.1, filter.value :: r.2)
      | .lte =>
        let c := castSide fieldType fieldName ++ (" <= ") ++ ph paramIndex
        let r := applyJsonbFilters rest columns (paramIndex + 1)
        (c :: r.1, filter.value :: r.2)
      | .like =>
        let c := condText fieldName ++ (" ILIKE ") ++ ph paramIndex
        let r := applyJsonbFilters rest columns (paramIndex + 1)
        (c :: r.1, filter.value :: r.2)
      | .isIn =>
        match filter.value.asArr with
        | some xs =>
          let placeholders := (List.range xs.length).map fun k => ph (paramIndex + k)
          let c := condText fieldName ++ (" IN (") ++
            String.intercalate (", ") placeholders ++ (")")
          let r := applyJsonbFilters rest columns (paramIndex + xs.length)
          (c :: r.1, xs.map (fun v => JsValue.str (jsToString v)) ++ r.2)
        | none => applyJsonbFilters rest columns paramIndex
      | .between =>
        match filter.value.asArr with
        | some xs =>
          if xs.length = 2 then
            let c := castSide fieldType fieldName ++ (" BETWEEN ") ++ ph paramIndex ++
              (" AND ") ++ ph (paramIndex + 1)
            let r := applyJsonbFilters rest columns (paramIndex + 2)
            (c :: r.1, xs.take 2 ++ r.2)
          else applyJsonbFilters rest columns paramIndex
        | none => applyJsonbFilters rest columns paramIndex

/-- `applyJsonbSorts`: per sort field, type-aware cast; unknown fields skipped. -/
def applyJsonbSorts (sorts : List SortExpression) (columns : List TableColumn) :
    List String :=
  match sorts with
  | [] => []
  | sort :: rest =>
    match findColumn columns sort.field with
    | none => applyJsonbSorts rest columns
    | some column =>
      let fieldName := column.physicalColumnName
      let direction := sort.direction.toUpper
      let clause :=
        if isNumericType column.type then condNum fieldName ++ (" ") ++ direction
        else if isDateType column.type then condTs fieldName ++ (" ") ++ direction
        else if column.type = ColumnType.BOOLEAN then condBool fieldName ++ (" ") ++ direction
        else condText fieldName ++ (" ") ++ direction
      clause :: applyJsonbSorts rest columns

/-- The quadruple returned by `buildSqlFromLqp`. -/
structure BuiltSql where
  query : String
  params : List JsValue
  countQuery : String
  countParams : List JsValue
deriving Repr, DecidableEq

/-- `buildSqlFromLqp`: base statements excluding soft-deleted rows, filter
clause shared between count and data statements, sort clause (defaulting to
`created_at DESC` when no sorts are given), and `LIMIT`/`OFFSET` appended as
the final positional parameters. -/
def buildSqlFromLqp (physicalTableName : String) (columns : List TableColumn)
    (lqp : Lqp) : BuiltSql :=
  let base := ("SELECT * FROM \"") ++ physicalTableName ++ ("\" WHERE deleted_at IS NULL")
  let countBase := ("SELECT COUNT(*) as count FROM \"") ++ physicalTableName ++
    ("\" WHERE deleted_at IS NULL")
  let filtered :=
    match lqp.filters with
    | some fs =>
      if fs.length > 0 then
        let filterResult := applyJsonbFilters fs columns 1
        if filterResult.1.length > 0 then
          let filterClause := (" AND ") ++ String.intercalate (" AND ") filterResult.1
          (base ++ filterClause, countBase ++ filterClause, filterResult.2)
        else (base, countBase, ([] : List JsValue))
      else (base, countBase, ([] : List JsValue))
    | none => (base, countBase, ([] : List JsValue))
  let query1 := filtered.1
  let countQuery := filtered.2.1
  let params1 := filtered.2.2
  let countParams := params1
  let paramIndex := 1 + params1.length
  let query2 :=
    match lqp.sorts with
    | some ss =>
      if ss.length > 0 then
        let sortClauses := applyJsonbSorts ss columns
        if sortClauses.length > 0 then
          query1 ++ (" ORDER BY ") ++ String.intercalate (", ") sortClauses
        else query1
      else query1 ++ (" ORDER BY created_at DESC")
    | none => query1 ++ (" ORDER BY created_at DESC")
  let limit := jsOr (lqp.pagination.bind fun p => p.limit) 10
  let offset := jsOr (lqp.pagination.bind fun p => p.offset) 0
  let query3 := query2 ++ (" LIMIT ") ++ ph paramIndex ++ (" OFFSET ") ++ ph (paramIndex + 1)
  { query := query3
    params := params1 ++ [JsValue.int limit, JsValue.int offset]
    countQuery := countQuery
    countParams := countParams }

/-- A physical row of an internal table (the bookkeeping columns the
executor's statements consult). -/
structure Row where
  id : String
  data : List (String × JsValue)
  version : Nat
  createdAt : Nat
  deletedAt : Option Nat
deriving Repr, DecidableEq

/-- `executeQuery` result shape. -/
structure QueryResult where
  rows : List Row
  total : Nat
  hasMore : Bool
deriving Repr, DecidableEq

/-- Semantics of `executeQuery`: the two generated statements are executed
with standard SQL meaning over a list-modelled physical table.  `matches`
stands for the conjunction of the generated filter conditions and `sorted`
for the generated ORDER BY (both statements share them); `deleted_at IS
NULL` and `LIMIT`/`OFFSET` are applied exactly as the statements require,
and `hasMore` is computed as in the service. -/
def executeQuery (tbl : List Row) (rowMatch : Row → Bool)
    (sorted : List Row → List Row) (lqp : Lqp) : Except String QueryResult :=
  if lqp.source.type ≠ SourceType.internal_table then
    .error ("Executor only supports internal tables")
  else
    let live := tbl.filter fun r => r.deletedAt = none && rowMatch r
    let total := live.length
    let limit := jsOr (lqp.pagination.bind fun p => p.limit) 10
    let offset := jsOr (lqp.pagination.bind fun p => p.offset) 0
    let rows := ((sorted live).drop offset.toNat).take limit.toNat
    .ok { rows := rows, total := total,
          hasMore := decide ((offset : Int) + rows.length < (total : Int)) }

end Internal

/-! ## DAL logical query plan and external adapters

The shared DAL interfaces (filter.interface.ts, join.interface.ts,
logical-query-plan.interface.ts) and the three adapters. -/

namespace Dal

/-- `FilterOperator` of the DAL contract. -/
inductive FilterOperator where
  | eq | neq | gt | gte | lt | lte | like | isIn | nin | is_null | is_not_null
  | andOp | orOp
deriving Repr, DecidableEq

/-- `FilterExpression`: a leaf carries `field`/`value`, a logical group
carries `conditions`.  A `conditions` value of `undefined` behaves in every
adapter exactly like `[]` (both fail the `length` test and both map to an
empty list), so the embedding uses a plain list. -/
inductive FilterExpression where
  | mk (field : Option String) (operator : FilterOperator) (value : JsValue)
       (conditions : List FilterExpression)
deriving Repr

/-- `filter.field` -/
def FilterExpression.field : FilterExpression → Option String
  | .mk f _ _ _ => f

/-- `filter.operator` -/
def FilterExpression.operator : FilterExpression → FilterOperator
  | .mk _ op _ _ => op

/-- `filter.value` -/
def FilterExpression.value : FilterExpression → JsValue
  | .mk _ _ v _ => v

/-- `filter.conditions` -/
def FilterExpression.conditions : FilterExpression → List FilterExpression
  | .mk _ _ _ cs => cs

/-- Join kinds. -/
inductive JoinType where
  | inner | left | right | full
deriving Repr, DecidableEq

/-- `join.type.toUpperCase()`. -/
def JoinType.toUpper : JoinType → String
  | .inner => ("INNER")
  | .left => ("LEFT")
  | .right => ("RIGHT")
  | .full => ("FULL")

/-- `JoinExpression`. -/
structure JoinExpression where
  type : JoinType
  targetTableId : String
  sourceField : String
  targetField : String
  aliasName : Option String := none
deriving Repr, DecidableEq

/-- DAL LQP source. -/
structure Source where
  type : Internal.SourceType
  tableId : String
  connectionId : Option String := none
deriving Repr, DecidableEq

/-- DAL `SortExpression`. -/
structure SortExpression where
  field : String
  direction : SortDir
deriving Repr, DecidableEq

/-- The DAL `LogicalQueryPlan` (computed columns are never consulted by the
adapters and are omitted here). -/
structure LogicalQueryPlan where
  source : Source
  fields : Option (List String) := none
  filters : Option (List FilterExpression) := none
  sorts : Option (List SortExpression) := none
  joins : Option (List JoinExpression) := none
  pagination : Option PaginationParams := none
deriving Repr

/-- Double-quoted PostgreSQL identifier. -/
def pgIdent (s : String) : String := ("\"") ++ s ++ ("\"")

/-- Backtick-quoted MySQL identifier. -/
def myIdent (s : String) : String := ("`") ++ s ++ ("`")

/-- PostgreSQL `buildSingleFilter` leaf switch: emits one SQL fragment and
its bound parameters, threading `paramCounter`. -/
def pgLeafFilter (fname : String) (op : FilterOperator) (value : JsValue)
    (paramCounter : Nat) : Except String (String × List JsValue × Nat) :=
  let field := pgIdent fname
  match op with
  | .eq => .ok (field ++ (" = ") ++ ph paramCounter, [value], paramCounter + 1)
  | .neq => .ok (field ++ (" != ") ++ ph paramCounter, [value], paramCounter + 1)
  | .gt => .ok (field ++ (" > ") ++ ph paramCounter, [value], paramCounter + 1)
  | .gte => .ok (field ++ (" >= ") ++ ph paramCounter, [value], paramCounter + 1)
  | .lt => .ok (field ++ (" < ") ++ ph paramCounter, [value], paramCounter + 1)
  | .lte => .ok (field ++ (" <= ") ++ ph paramCounter, [value], paramCounter + 1)
  | .like => .ok (field ++ (" LIKE ") ++ ph paramCounter, [value], paramCounter + 1)
  | .isIn =>
    match value with
    | .arr xs =>
      let inParams := String.intercalate (", ")
        ((List.range xs.length).map fun k => ph (paramCounter + k))
      .ok (field ++ (" IN (") ++ inParams ++ (")"), xs, paramCounter + xs.length)
    | _ => .error ("IN operator requires an array value")
  | .nin =>
    match value with
    | .arr xs =>
      let ninParams := String.intercalate (", ")
        ((List.range xs.length).map fun k => ph (paramCounter + k))
      .ok (field ++ (" NOT IN (") ++ ninParams ++ (")"), xs, paramCounter + xs.length)
    | _ => .error ("NIN operator requires an array value")
  | .is_null => .ok (field ++ (" IS NULL"), [], paramCounter)
  | .is_not_null => .ok (field ++ (" IS NOT NULL"), [], paramCounter)
  | .andOp => .error ("Unsupported filter operator: and")
  | .orOp => .error ("Unsupported filter operator: or")

mutual

/-- PostgreSQL `buildSingleFilter`: a logical group with empty `conditions`
yields the empty fragment (no error); a field-based filter without `field`
throws. -/
def pgBuildSingleFilter (filter : FilterExpression) (paramCounter : Nat) :
    Except String (String × List JsValue × Nat) :=
  match filter with
  | .mk field op _value conditions =>
    if op = FilterOperator.andOp ∨ op = FilterOperator.orOp then
      if conditions.isEmpty then .ok (("") , [], paramCounter)
      else
        (pgBuildGroup conditions paramCounter).map fun r =>
          let operator := if op = FilterOperator.andOp then (" AND ") else (" OR ")
          (("(") ++ String.intercalate operator r.1 ++ (")"), r.2.1, r.2.2)
    else
      match field with
      | none => .error ("Filter field is required for non-logical operators")
      | some fname => pgLeafFilter fname op filter.value paramCounter

/-- The loop over a group's `conditions`: empty child fragments are dropped
and (as in the source) leave `paramCounter` untouched, while the shared
`params` array still receives every child's pushes. -/
def pgBuildGroup (conditions : List FilterExpression) (paramCounter : Nat) :
    Except String (List String × List JsValue × Nat) :=
  match conditions with
  | [] => .ok ([], [], paramCounter)
  | c :: rest =>
    match pgBuildSingleFilter c paramCounter with
    | .error e => .error e
    | .ok (sql, ps, pc) =>
      if sql = ("") then
        match pgBuildGroup rest paramCounter with
        | .error e => .error e
        | .ok (sqls, ps2, pc2) => .ok (sqls, ps ++ ps2, pc2)
      else
        match pgBuildGroup rest pc with
        | .error e => .error e
        | .ok (sqls, ps2, pc2) => .ok (sql :: sqls, ps ++ ps2, pc2)

end

/-- PostgreSQL `buildFilterClause`: the top-level filters are AND-combined;
every fragment (even an empty one) is pushed. -/
def pgBuildFilterClause (filters : List FilterExpression) (paramCounter : Nat) :
    Except String (String × List JsValue × Nat) :=
  match filters with
  | [] => .ok (("") , [], paramCounter)
  | _ =>
    let rec go (fs : List FilterExpression) (pc : Nat) :
        Except String (List String × List JsValue × Nat) :=
      match fs with
      | [] => .ok ([], [], pc)
      | f :: rest =>
        match pgBuildSingleFilter f pc with
        | .error e => .error e
        | .ok (sql, ps, pc1) =>
          match go rest pc1 with
          | .error e => .error e
          | .ok (sqls, ps2, pc2) => .ok (sql :: sqls, ps ++ ps2, pc2)
    match go filters paramCounter with
    | .error e => .error e
    | .ok (sqls, ps, pc) => .ok (String.intercalate (" AND ") sqls, ps, pc)

/-- PostgreSQL `buildJoinClause`. -/
def pgBuildJoinClause (join : JoinExpression) : String :=
  let joinType := join.type.toUpper
  let targetTable :=
    match join.aliasName with
    | some a => pgIdent join.targetTableId ++ (" AS ") ++ pgIdent a
    | none => pgIdent join.targetTableId
  let targetRef :=
    match join.aliasName with
    | some a => a
    | none => join.targetTableId
  (" ") ++ joinType ++ (" JOIN ") ++ targetTable ++ (" ON ") ++
    pgIdent join.sourceField ++ (" = ") ++ pgIdent targetRef ++ (".") ++
    pgIdent join.targetField

/-- PostgreSQL `buildSortClause`. -/
def pgBuildSortClause (sorts : List SortExpression) : String :=
  match sorts with
  | [] => ("")
  | _ =>
    (" ORDER BY ") ++ String.intercalate (", ")
      (sorts.map fun sort => pgIdent sort.field ++ (" ") ++ sort.direction.toUpper)

/-- The `LIMIT`/`OFFSET` block of PostgreSQL `translateLQPToSQL`
(`if (lqp.pagination) { ... }`, truthy values only). -/
def pgPaginationClause (pagination : Option PaginationParams) (paramCounter : Nat) :
    String × List JsValue :=
  match pagination with
  | none => (("") , [])
  | some p =>
    let st1 :=
      match p.limit with
      | some l =>
        if l = 0 then (("") , ([] : List JsValue), paramCounter)
        else ((" LIMIT ") ++ ph paramCounter, [JsValue.int l], paramCounter + 1)
      | none => (("") , ([] : List JsValue), paramCounter)
    let st2 :=
      match p.offset with
      | some o =>
        if o = 0 then (("") , ([] : List JsValue))
        else ((" OFFSET ") ++ ph st1.2.2, [JsValue.int o])
      | none => (("") , ([] : List JsValue))
    (st1.1 ++ st2.1, st1.2.1 ++ st2.2)

/-- PostgreSQL `translateLQPToSQL`. -/
def pgTranslateLQPToSQL (lqp : LogicalQueryPlan) :
    Except String (String × List JsValue) :=
  let selectClause :=
    match lqp.fields with
    | some fs =>
      if fs.length > 0 then ("SELECT ") ++ String.intercalate (", ") (fs.map pgIdent)
      else ("SELECT *")
    | none => ("SELECT *")
  let fromClause := (" FROM ") ++ pgIdent lqp.source.tableId
  let joinClause :=
    match lqp.joins with
    | some js =>
      if js.length > 0 then String.join (js.map pgBuildJoinClause) else ("")
    | none => ("")
  let whereStep :=
    match lqp.filters with
    | some fs =>
      if fs.length > 0 then
        match pgBuildFilterClause fs 1 with
        | .error e => Except.error e
        | .ok (sql, ps, pc) => Except.ok ((" WHERE ") ++ sql, ps, pc)
      else Except.ok (("") , ([] : List JsValue), 1)
    | none => Except.ok (("") , ([] : List JsValue), 1)
  match whereStep with
  | .error e => .error e
  | .ok (whereClause, params1, paramCounter) =>
    let orderByClause :=
      match lqp.sorts with
      | some ss => if ss.length > 0 then pgBuildSortClause ss else ("")
      | none => ("")
    let pag := pgPaginationClause lqp.pagination paramCounter
    .ok (selectClause ++ fromClause ++ joinClause ++ whereClause ++ orderByClause ++ pag.1,
         params1 ++ pag.2)

/-- MySQL leaf switch of `buildSingleFilter` (placeholder syntax `?`). -/
def myLeafFilter (fname : String) (op : FilterOperator) (value : JsValue) :
    Except String (String × List JsValue) :=
  let field := myIdent fname
  match op with
  | .eq => .ok (field ++ (" = ?"), [value])
  | .neq => .ok (field ++ (" != ?"), [value])
  | .gt => .ok (field ++ (" > ?"), [value])
  | .gte => .ok (field ++ (" >= ?"), [value])
  | .lt => .ok (field ++ (" < ?"), [value])
  | .lte => .ok (field ++ (" <= ?"), [value])
  | .like => .ok (field ++ (" LIKE ?"), [value])
  | .isIn =>
    match value with
    | .arr xs =>
      let inPlaceholders := String.intercalate (", ") (xs.map fun _ => ("?"))
      .ok (field ++ (" IN (") ++ inPlaceholders ++ (")"), xs)
    | _ => .error ("IN operator requires an array value")
  | .nin =>
    match value with
    | .arr xs =>
      let ninPlaceholders := String.intercalate (", ") (xs.map fun _ => ("?"))
      .ok (field ++ (" NOT IN (") ++ ninPlaceholders ++ (")"), xs)
    | _ => .error ("NIN operator requires an array value")
  | .is_null => .ok (field ++ (" IS NULL"), [])
  | .is_not_null => .ok (field ++ (" IS NOT NULL"), [])
  | .andOp => .error ("Unsupported filter operator: and")
  | .orOp => .error ("Unsupported filter operator: or")

mutual

/-- MySQL `buildSingleFilter`: same structure as the PostgreSQL one, without
a positional counter. -/
def myBuildSingleFilter (filter : FilterExpression) :
    Except String (String × List JsValue) :=
  match filter with
  | .mk field op _value conditions =>
    if op = FilterOperator.andOp ∨ op = FilterOperator.orOp then
      if conditions.isEmpty then .ok (("") , [])
      else
        (myBuildGroup conditions).map fun r =>
          let operator := if op = FilterOperator.andOp then (" AND ") else (" OR ")
          (("(") ++ String.intercalate operator r.1 ++ (")"), r.2)
    else
      match field with
      | none => .error ("Filter field is required for non-logical operators")
      | some fname => myLeafFilter fname op filter.value

/-- The loop over a group's `conditions` (empty fragments dropped). -/
def myBuildGroup (conditions : List FilterExpression) :
    Except String (List String × List JsValue) :=
  match conditions with
  | [] => .ok ([], [])
  | c :: rest =>
    match myBuildSingleFilter c with
    | .error e => .error e
    | .ok (sql, ps) =>
      match myBuildGroup rest with
      | .error e => .error e
      | .ok (sqls, ps2) =>
        if sql = ("") then .ok (sqls, ps ++ ps2)
        else .ok (sql :: sqls, ps ++ ps2)

end

/-- MySQL `buildFilterClause`. -/
def myBuildFilterClause (filters : List FilterExpression) :
    Except String (String × List JsValue) :=
  match filters with
  | [] => .ok (("") , [])
  | _ =>
    let rec go (fs : List FilterExpression) :
        Except String (List String × List JsValue) :=
      match fs with
      | [] => .ok ([], [])
      | f :: rest =>
        match myBuildSingleFilter f with
        | .error e => .error e
        | .ok (sql, ps) =>
          match go rest with
          | .error e => .error e
          | .ok (sqls, ps2) => .ok (sql :: sqls, ps ++ ps2)
    match go filters with
    | .error e => .error e
    | .ok (sqls, ps) => .ok (String.intercalate (" AND ") sqls, ps)

/-- MySQL `buildJoinClause`. -/
def myBuildJoinClause (join : JoinExpression) : String :=
  let joinType := join.type.toUpper
  let targetTable :=
    match join.aliasName with
    | some a => myIdent join.targetTableId ++ (" AS ") ++ myIdent a
    | none => myIdent join.targetTableId
  let targetRef :=
    match join.aliasName with
    | some a => a
    | none => join.targetTableId
  (" ") ++ joinType ++ (" JOIN ") ++ targetTable ++ (" ON ") ++
    myIdent join.sourceField ++ (" = ") ++ myIdent targetRef ++ (".") ++
    myIdent join.targetField

/-- MySQL `buildSortClause`. -/
def myBuildSortClause (sorts : List SortExpression) : String :=
  match sorts with
  | [] => ("")
  | _ =>
    (" ORDER BY ") ++ String.intercalate (", ")
      (sorts.map fun sort => myIdent sort.field ++ (" ") ++ sort.direction.toUpper)

/-- The `LIMIT`/`OFFSET` block of MySQL `translateLQPToSQL` (placeholder
syntax `?`, truthy values only). -/
def myPaginationClause (pagination : Option PaginationParams) : String × List JsValue :=
  match pagination with
  | none => (("") , [])
  | some p =>
    let st1 :=
      match p.limit with
      | some l =>
        if l = 0 then (("") , ([] : List JsValue))
        else ((" LIMIT ?"), [JsValue.int l])
      | none => (("") , ([] : List JsValue))
    let st2 :=
      match p.offset with
      | some o =>
        if o = 0 then (("") , ([] : List JsValue))
        else ((" OFFSET ?"), [JsValue.int o])
      | none => (("") , ([] : List JsValue))
    (st1.1 ++ st2.1, st1.2 ++ st2.2)

/-- MySQL `translateLQPToSQL`. -/
def myTranslateLQPToSQL (lqp : LogicalQueryPlan) :
    Except String (String × List JsValue) :=
  let selectClause :=
    match lqp.fields with
    | some fs =>
      if fs.length > 0 then ("SELECT ") ++ String.intercalate (", ") (fs.map myIdent)
      else ("SELECT *")
    | none => ("SELECT *")
  let fromClause := (" FROM ") ++ myIdent lqp.source.tableId
  let joinClause :=
    match lqp.joins with
    | some js =>
      if js.length > 0 then String.join (js.map myBuildJoinClause) else ("")
    | none => ("")
  let whereStep :=
    match lqp.filters with
    | some fs =>
      if fs.length > 0 then
        match myBuildFilterClause fs with
        | .error e => Except.error e
        | .ok (sql, ps) => Except.ok ((" WHERE ") ++ sql, ps)
      else Except.ok (("") , ([] : List JsValue))
    | none => Except.ok (("") , ([] : List JsValue))
  match whereStep with
  | .error e => .error e
  | .ok (whereClause, params1) =>
    let orderByClause :=
      match lqp.sorts with
      | some ss => if ss.length > 0 then myBuildSortClause ss else ("")
      | none => ("")
    let pag := myPaginationClause lqp.pagination
    .ok (selectClause ++ fromClause ++ joinClause ++ whereClause ++ orderByClause ++ pag.1,
         params1 ++ pag.2)

/-! ### MongoDB adapter (document-store) -/

/-- A MongoDB per-field match specification, as built by
`buildFilterCondition`. -/
inductive MongoSpec where
  | eqv (v : JsValue)
  | ne (v : JsValue)
  | gtv (v : JsValue)
  | gte (v : JsValue)
  | ltv (v : JsValue)
  | lte (v : JsValue)
  | regex (pattern : String) (options : String)
  | inv (v : JsValue)
  | ninv (v : JsValue)
deriving Repr, DecidableEq

/-- A MongoDB match condition document. -/
inductive MongoCond where
  | field (name : String) (spec : MongoSpec)
  | andC (cs : List MongoCond)
  | orC (cs : List MongoCond)
deriving Repr

/-- SQL LIKE pattern to MongoDB regex: `%` becomes `.*`, `_` becomes `.`. -/
def likeToRegex (s : String) : String :=
  String.mk (s.data.foldr
    (fun c acc =>
      if c = (Char.ofNat 37) then (Char.ofNat 46) :: (Char.ofNat 42) :: acc
      else if c = (Char.ofNat 95) then (Char.ofNat 46) :: acc
      else c :: acc) [])

mutual

/-- MongoDB `buildFilterCondition`: groups map to `$and`/`$or` over
`conditions || []`; a field-based filter without `field` throws; `like` on a
non-string value throws a TypeError (`.replace` is not a function). -/
def mongoBuildFilterCondition (filter : FilterExpression) :
    Except String MongoCond :=
  match filter with
  | .mk field op value conditions =>
    if op = FilterOperator.andOp then
      match mongoBuildConditionList conditions with
      | .error e => .error e
      | .ok cs => .ok (MongoCond.andC cs)
    else if op = FilterOperator.orOp then
      match mongoBuildConditionList conditions with
      | .error e => .error e
      | .ok cs => .ok (MongoCond.orC cs)
    else
      match field with
      | none => .error ("Filter field is required for non-logical operators")
      | some fname =>
        match op with
        | .eq => .ok (MongoCond.field fname (MongoSpec.eqv value))
        | .neq => .ok (MongoCond.field fname (MongoSpec.ne value))
        | .gt => .ok (MongoCond.field fname (MongoSpec.gtv value))
        | .gte => .ok (MongoCond.field fname (MongoSpec.gte value))
        | .lt => .ok (MongoCond.field fname (MongoSpec.ltv value))
        | .lte => .ok (MongoCond.field fname (MongoSpec.lte value))
        | .like =>
          match value with
          | .str s => .ok (MongoCond.field fname (MongoSpec.regex (likeToRegex s) ("i")))
          | _ => .error ("filter.value.replace is not a function")
        | .isIn => .ok (MongoCond.field fname (MongoSpec.inv value))
        | .nin => .ok (MongoCond.field fname (MongoSpec.ninv value))
        | .is_null => .ok (MongoCond.field fname (MongoSpec.eqv JsValue.null))
        | .is_not_null => .ok (MongoCond.field fname (MongoSpec.ne JsValue.null))
        | .andOp => .error ("unreachable")
        | .orOp => .error ("unreachable")

/-- Maps `buildFilterCondition` over a conditions list. -/
def mongoBuildConditionList (conditions : List FilterExpression) :
    Except String (List MongoCond) :=
  match conditions with
  | [] => .ok []
  | c :: rest =>
    match mongoBuildFilterCondition c with
    | .error e => .error e
    | .ok mc =>
      match mongoBuildConditionList rest with
      | .error e => .error e
      | .ok mcs => .ok (mc :: mcs)

end

/-- MongoDB `buildMatchStage`: one filter is used as-is, several are
`$and`-combined. -/
def mongoBuildMatchStage (filters : List FilterExpression) :
    Except String (Option MongoCond) :=
  match filters with
  | [] => .ok none
  | [f] =>
    match mongoBuildFilterCondition f with
    | .error e => .error e
    | .ok c => .ok (some c)
  | fs =>
    match mongoBuildConditionList fs with
    | .error e => .error e
    | .ok cs => .ok (some (MongoCond.andC cs))

/-- An aggregation-pipeline stage. -/
inductive MongoStage where
  | matchS (cond : MongoCond)
  | sortS (entries : List (String × Int))
  | skipS (n : Int)
  | limitS (n : Int)
  | projectS (fields : List (String × Int))
  | lookupS (fromColl : String) (localField : String) (foreignField : String)
      (asField : String)
deriving Repr

/-- MongoDB `buildSortStage`: `asc` maps to `1`, anything else to `-1`. -/
def mongoBuildSortStage (sorts : List SortExpression) : List (String × Int) :=
  sorts.map fun sort => (sort.field, if sort.direction = SortDir.asc then 1 else -1)

/-- The `$skip`/`$limit` stages appended for truthy pagination values
(`$skip` first, as in the source). -/
def mongoPaginationStages : Option PaginationParams → List MongoStage
  | none => []
  | some p =>
    (match p.offset with
     | some o => if o = 0 then [] else [MongoStage.skipS o]
     | none => []) ++
    (match p.limit with
     | some l => if l = 0 then [] else [MongoStage.limitS l]
     | none => [])

/-- MongoDB `translateLQPToAggregation`: `$match`, `$sort`, `$skip`/`$limit`
(truthy pagination values only), `$project`, then one `$lookup` per join.
The `Object.keys(matchCondition).length > 0` guard of the source is always
satisfied, since every condition document built has exactly one key. -/
def mongoTranslateLQPToAggregation (lqp : LogicalQueryPlan) :
    Except String (List MongoStage) :=
  let matchStep :=
    match lqp.filters with
    | some fs =>
      if fs.length > 0 then
        match mongoBuildMatchStage fs with
        | .error e => Except.error e
        | .ok (some c) => Except.ok ([MongoStage.matchS c])
        | .ok none => Except.ok ([] : List MongoStage)
      else Except.ok ([] : List MongoStage)
    | none => Except.ok ([] : List MongoStage)
  match matchStep with
  | .error e => .error e
  | .ok stages0 =>
    let stages1 :=
      match lqp.sorts with
      | some ss =>
        if ss.length > 0 then stages0 ++ [MongoStage.sortS (mongoBuildSortStage ss)]
        else stages0
      | none => stages0
    let stages2 := stages1 ++ mongoPaginationStages lqp.pagination
    let stages3 :=
      match lqp.fields with
      | some fs =>
        if fs.length > 0 then stages2 ++ [MongoStage.projectS (fs.map fun f => (f, 1))]
        else stages2
      | none => stages2
    let stages4 :=
      match lqp.joins with
      | some js =>
        if js.length > 0 then
          stages3 ++ js.map (fun join =>
            MongoStage.lookupS join.targetTableId join.sourceField join.targetField
              (match join.aliasName with
               | some a => a
               | none => join.targetTableId))
        else stages3
      | none => stages3
    .ok stages4

end Dal

/-! ## LQP builder (lqp-builder.service.ts)

`build()` returns `JSON.parse(JSON.stringify(this.lqp))`.  Whether that deep
copy actually isolates earlier snapshots from later builder mutation is an
aliasing question, so the builder is modelled against an explicit heap:
the builder's pending plan is an object in `objs` whose `filters`/`sorts`
arrays live in separate heap cells (`filter()`/`sort()` push into those
cells in place, while `select()`/`paginate()`/`from*()` overwrite fields of
the object itself).  `build` allocates a fresh object with fresh cells
holding copies — the JSON round trip. -/

namespace Builder

/-- The heap representation of the builder's `this.lqp` object.  Fields that
the builder only ever replaces wholesale (`source`, `fields`, `pagination`)
are stored inline; the arrays mutated in place (`filters`, `sorts`) are heap
references.  `joins`/`computedColumns` are reset to `[]` and never touched. -/
structure LqpObj where
  source : Dal.Source
  fields : List String
  filtersAddr : Nat
  sortsAddr : Nat
  pagination : PaginationParams
deriving Repr, DecidableEq

/-- The whole mutable state: object heap, the two array heaps, and the
address of the builder's current `this.lqp`. -/
structure State where
  objs : List LqpObj
  filtersH : List (List Dal.FilterExpression)
  sortsH : List (List Dal.SortExpression)
  builder : Nat

/-- The pure value of a plan object: what `JSON.stringify` would serialize. -/
structure PlanValue where
  source : Dal.Source
  fields : List String
  filters : List Dal.FilterExpression
  sorts : List Dal.SortExpression
  pagination : PaginationParams

/-- Dereference an object address into a plan value. -/
def readPlan (s : State) (a : Nat) : Option PlanValue :=
  match s.objs.get? a with
  | none => none
  | some obj =>
    match s.filtersH.get? obj.filtersAddr, s.sortsH.get? obj.sortsAddr with
    | some fs, some ss =>
      some { source := obj.source, fields := obj.fields, filters := fs,
             sorts := ss, pagination := obj.pagination }
    | _, _ => none

/-- `reset()`: a brand-new `this.lqp` object with empty arrays. -/
def reset (s : State) (source : Dal.Source) : State :=
  { objs := s.objs ++ [{ source := source, fields := [],
                         filtersAddr := s.filtersH.length,
                         sortsAddr := s.sortsH.length,
                         pagination := {} }]
    filtersH := s.filtersH ++ [[]]
    sortsH := s.sortsH ++ [[]]
    builder := s.objs.length }

/-- `fromInternalTable(tableId)`. -/
def fromInternalTable (s : State) (tableId : String) : State :=
  reset s { type := Internal.SourceType.internal_table, tableId := tableId }

/-- `fromExternalConnection(connectionId, tableId)`. -/
def fromExternalConnection (s : State) (connectionId tableId : String) : State :=
  reset s { type := Internal.SourceType.external_connection, tableId := tableId,
            connectionId := some connectionId }

/-- Overwrite a field of the builder's current object. -/
def updateObj (s : State) (f : LqpObj → LqpObj) : State :=
  match s.objs.get? s.builder with
  | none => s
  | some obj => { s with objs := s.objs.set s.builder (f obj) }

/-- `select(fields)`: replaces `this.lqp.fields`. -/
def select (s : State) (fields : List String) : State :=
  updateObj s fun obj => { obj with fields := fields }

/-- `paginate(pagination)`: replaces `this.lqp.pagination`. -/
def paginate (s : State) (p : PaginationParams) : State :=
  updateObj s fun obj => { obj with pagination := p }

/-- `filter(filter)`: pushes onto the `filters` array in place. -/
def filterPush (s : State) (f : Dal.FilterExpression) : State :=
  match s.objs.get? s.builder with
  | none => s
  | some obj =>
    match s.filtersH.get? obj.filtersAddr with
    | none => s
    | some fs => { s with filtersH := s.filtersH.set obj.filtersAddr (fs ++ [f]) }

/-- `sort(sort)`: pushes onto the `sorts` array in place. -/
def sortPush (s : State) (e : Dal.SortExpression) : State :=
  match s.objs.get? s.builder with
  | none => s
  | some obj =>
    match s.sortsH.get? obj.sortsAddr with
    | none => s
    | some ss => { s with sortsH := s.sortsH.set obj.sortsAddr (ss ++ [e]) }

/-- `build()`: `JSON.parse(JSON.stringify(this.lqp))` — a structural deep
copy: a fresh object with fresh array cells holding copies of the current
contents.  Returns the new state and the address of the snapshot. -/
def build (s : State) : State × Nat :=
  match s.objs.get? s.builder with
  | none => (s, s.objs.length)
  | some obj =>
    match s.filtersH.get? obj.filtersAddr, s.sortsH.get? obj.sortsAddr with
    | some fs, some ss =>
      let snapObj : LqpObj :=
        { obj with filtersAddr := s.filtersH.length, sortsAddr := s.sortsH.length }
      ({ objs := s.objs ++ [snapObj]
         filtersH := s.filtersH ++ [fs]
         sortsH := s.sortsH ++ [ss]
         builder := s.builder }, s.objs.length)
    | _, _ => (s, s.objs.length)

/-- One observable builder call. -/
inductive Op where
  | fromInternalTable (tableId : String)
  | fromExternalConnection (connectionId tableId : String)
  | select (fields : List String)
  | filter (f : Dal.FilterExpression)
  | sort (e : Dal.SortExpression)
  | paginate (p : PaginationParams)
  | build

/-- Apply one call (the snapshot address a `build` returns is dropped). -/
def applyOp (s : State) : Op → State
  | .fromInternalTable t => fromInternalTable s t
  | .fromExternalConnection c t => fromExternalConnection s c t
  | .select fs => select s fs
  | .filter f => filterPush s f
  | .sort e => sortPush s e
  | .paginate p => paginate s p
  | .build => (build s).1

/-- Apply a sequence of calls. -/
def applyOps (s : State) : List Op → State
  | [] => s
  | op :: rest => applyOps (applyOp s op) rest

/-- The state of a freshly constructed `LqpBuilderService` (the constructor
calls `reset()` with an internal source and empty `tableId`). -/
def initState : State :=
  reset { objs := [], filtersH := [], sortsH := [], builder := 0 }
    { type := Internal.SourceType.internal_table, tableId := ("") }

/-- Builder-state well-formedness: the current object and its array cells
exist. -/
def Wf (s : State) : Prop :=
  ∃ obj, s.objs.get? s.builder = some obj ∧
    obj.filtersAddr < s.filtersH.length ∧ obj.sortsAddr < s.sortsH.length

/-- The separation invariant between the live builder and a returned
snapshot at address `a`: both objects exist, their array cells are in
bounds, and the snapshot shares no heap cell with the builder. -/
def SnapInv (s : State) (a : Nat) : Prop :=
  ∃ bObj sObj,
    s.objs.get? s.builder = some bObj ∧
    bObj.filtersAddr < s.filtersH.length ∧ bObj.sortsAddr < s.sortsH.length ∧
    s.objs.get? a = some sObj ∧
    sObj.filtersAddr < s.filtersH.length ∧ sObj.sortsAddr < s.sortsH.length ∧
    s.builder ≠ a ∧ bObj.filtersAddr ≠ sObj.filtersAddr ∧
    bObj.sortsAddr ≠ sObj.sortsAddr

end Builder

/-! ## Rows service (rows.service.ts): optimistic-concurrency update -/

namespace Rows

/-- The column metadata consulted by `validateAndCoerceRowData`. -/
structure Column where
  name : String
  physicalColumnName : String
  type : Internal.ColumnType
  isRequired : Bool
  defaultValue : Option JsValue := none
deriving Repr, DecidableEq

/-- The two `ColumnsService` helpers the validation path delegates to.
`validateColumnType` and `coerceValue` (columns.service.ts) in turn lean on
host-runtime primitives (`Date.parse`, `parseInt`, `parseFloat`), so they
enter the model as an abstract pair; `coerceValue` returning `none` stands
for the `BadRequestException` it may throw. -/
structure ColumnsSvc where
  validateColumnType : Internal.ColumnType → JsValue → Bool
  coerceValue : Internal.ColumnType → JsValue → Option JsValue

/-- First-match association lookup (JavaScript property access on `data`). -/
def lookupAssoc (data : List (String × JsValue)) (key : String) : Option JsValue :=
  match data.find? fun kv => kv.1 = key with
  | some kv => some kv.2
  | none => none

/-- Sets `validatedData[key] = v` (overwrite-or-append). -/
def setAssoc (data : List (String × JsValue)) (key : String) (v : JsValue) :
    List (String × JsValue) :=
  if (data.find? fun kv => kv.1 = key).isSome then
    data.map fun kv => if kv.1 = key then (key, v) else kv
  else data ++ [(key, v)]

/-- `data[column.name] ?? data[column.physicalColumnName]` — `??` falls
through on both `undefined` (absent key) and `null`. -/
def getColumnValue (data : List (String × JsValue)) (col : Column) : Option JsValue :=
  match lookupAssoc data col.name with
  | some v => if v = JsValue.null then lookupAssoc data col.physicalColumnName else some v
  | none => lookupAssoc data col.physicalColumnName

/-- `value === null || value === undefined`. -/
def isNullish (v : Option JsValue) : Bool :=
  match v with
  | none => true
  | some w => w = JsValue.null

/-- `validateAndCoerceRowData`: required-field defaults (skipped for partial
updates), per-column type validation with coercion fallback; values that
stay nullish are simply left out of the result. -/
def validateAndCoerceRowData (svc : ColumnsSvc) (columns : List Column)
    (data : List (String × JsValue)) (isPartialUpdate : Bool) :
    Except String (List (String × JsValue)) :=
  go columns []
where
  go : List Column → List (String × JsValue) → Except String (List (String × JsValue))
  | [], acc => .ok acc
  | column :: rest, acc =>
    let value := getColumnValue data column
    if column.isRequired && isNullish value && !isPartialUpdate then
      match column.defaultValue with
      | some dv =>
        match svc.coerceValue column.type dv with
        | some c => go rest (setAssoc acc column.physicalColumnName c)
        | none => .error (("Cannot coerce value"))
      | none => .error (("Required field ") ++ sq ++ column.name ++ sq ++ (" is missing"))
    else
      match value with
      | some v =>
        if v = JsValue.null then go rest acc
        else if svc.validateColumnType column.type v then
          go rest (setAssoc acc column.physicalColumnName v)
        else
          match svc.coerceValue column.type v with
          | some c => go rest (setAssoc acc column.physicalColumnName c)
          | none =>
            .error (("Invalid value for field ") ++ sq ++ column.name ++ sq)
      | none => go rest acc

/-- A physical row as the rows service sees it. -/
structure Row where
  id : String
  data : List (String × JsValue)
  version : Nat
  deletedAt : Option Nat := none
  updatedBy : Option String := none
deriving Repr, DecidableEq

/-- The update payload `UpdateRowDto`. -/
structure UpdateRowDto where
  data : List (String × JsValue)
  version : Option Nat := none
deriving Repr, DecidableEq

/-- `findOne`: `SELECT * ... WHERE id = $1 AND deleted_at IS NULL`, throwing
`NotFoundException` when nothing matches. -/
def findOne (db : List Row) (rowId : String) : Except String Row :=
  match db.find? fun r => r.id = rowId && r.deletedAt = none with
  | some r => .ok r
  | none => .error (("Row not found"))

/-- JavaScript object spread `{...base, ...upd}` on attribute maps. -/
def mergeData (base upd : List (String × JsValue)) : List (String × JsValue) :=
  (base.map fun kv =>
    match lookupAssoc upd kv.1 with
    | some v => (kv.1, v)
    | none => kv) ++
  upd.filter fun kv => lookupAssoc base kv.1 = none

/-- The WHERE predicate of the generated UPDATE statement: `id = $3 AND
deleted_at IS NULL`, plus `AND version = $4` when the caller supplied an
expected version. -/
def updateHit (rowId : String) (expected : Option Nat) (r : Row) : Bool :=
  r.id = rowId && r.deletedAt = none &&
    (match expected with
     | some v => r.version = v
     | none => true)

/-- The SET clause: `data = $1, updated_by = $2, version = version + 1`. -/
def applySet (validatedData : List (String × JsValue)) (userId : String) (r : Row) : Row :=
  { r with data := validatedData, version := r.version + 1, updatedBy := some userId }

/-- `RowsService.update`: fetch, merge, validate, then a single UPDATE with
optimistic locking; zero affected rows surfaces as `ConflictException` (no
retry — the statement runs exactly once).  Returns the `RETURNING *` row
and the table contents after the statement. -/
def update (svc : ColumnsSvc) (db : List Row) (columns : List Column)
    (rowId userId : String) (dto : UpdateRowDto) : Except String (Row × List Row) :=
  match findOne db rowId with
  | .error e => .error e
  | .ok currentRow =>
    match validateAndCoerceRowData svc columns (mergeData currentRow.data dto.data) true with
    | .error e => .error e
    | .ok validatedData =>
      match (db.filter (updateHit rowId dto.version)).map (applySet validatedData userId) with
      | [] => .error (("Row was modified by another user. Please refresh and try again."))
      | r0 :: _ =>
        .ok (r0, db.map fun r =>
          if updateHit rowId dto.version r then applySet validatedData userId r else r)

end Rows

/-! ## Adapter liveness probes and MongoDB connect retry -/

namespace Adapters

/-- The slice of a `pg` pool the probe touches: the outcome of
`pool.query('SELECT 1 as test')`. -/
structure PgPool where
  queryRows : Except String (List JsValue)
deriving Repr

/-- PostgreSQL `testConnection`: throws when `this.pool` is null, otherwise
`true` iff the probe query returns rows. -/
def pgTestConnection (pool : Option PgPool) : Except String Bool :=
  match pool with
  | none => .error (("Not connected. Call connect() first."))
  | some p =>
    match p.queryRows with
    | .ok rows => .ok (decide (rows.length > 0))
    | .error _ => .ok false

/-- The slice of a `mysql2` pool the probe touches. -/
structure MyPool where
  queryRows : Except String (List JsValue)
deriving Repr

/-- MySQL `testConnection`: throws when `this.pool` is null, otherwise
`true` iff the probe query returns a non-empty row array. -/
def myTestConnection (pool : Option MyPool) : Except String Bool :=
  match pool with
  | none => .error (("Not connected. Call connect() first."))
  | some p =>
    match p.queryRows with
    | .ok rows => .ok (decide (rows.length > 0))
    | .error _ => .ok false

/-- The slice of a MongoDB `Db` handle the probe touches: the outcome of
`db.admin().ping()`. -/
structure MongoDb where
  pingResult : Except String Unit
deriving Repr

/-- MongoDB `testConnection`: throws when `this.db` is null, otherwise
`true` iff the ping succeeds. -/
def mongoTestConnection (db : Option MongoDb) : Except String Bool :=
  match db with
  | none => .error (("Not connected. Call connect() first."))
  | some d =>
    match d.pingResult with
    | .ok _ => .ok true
    | .error _ => .ok false

/-- The retry loop of `MongoDBAdapter.connect` (`while (retries <
maxRetries)`): `attemptOk k` is the outcome of the `k`-th (zero-based)
`client.connect()` attempt; the returned list records, in order, the sleeps
`Math.pow(2, retries) * 1000` taken between attempts (`retries` having
already been incremented when the delay is computed).  `fuel` counts the
remaining loop iterations, `maxRetries - retries`. -/
def mongoConnectGo (attemptOk : Nat → Bool) (maxRetries : Nat) :
    Nat → Nat → List Nat → Bool × List Nat
  | 0, _, delays => (false, delays)
  | fuel + 1, retries, delays =>
    if attemptOk retries then (true, delays)
    else
      let retries1 := retries + 1
      let delays1 :=
        if retries1 < maxRetries then delays ++ [2 ^ retries1 * 1000] else delays
      mongoConnectGo attemptOk maxRetries fuel retries1 delays1

/-- `MongoDBAdapter.connect` retry behaviour: `maxRetries = config.maxRetries
|| 3`; after the loop exhausts the attempts a `ConnectionError`-style
exception is raised.  Returns the outcome and the sleep sequence. -/
def mongoConnect (cfgMaxRetries : Option Int) (attemptOk : Nat → Bool) :
    Except String Unit × List Nat :=
  let maxRetries := (jsOr cfgMaxRetries 3).toNat
  let r := mongoConnectGo attemptOk maxRetries maxRetries 0 []
  (if r.1 then .ok ()
   else .error (("Failed to connect to MongoDB after ") ++ toString maxRetries ++
     (" attempts")), r.2)

end Adapters

/-! ## Formula evaluator (formula-evaluator.service.ts)

JavaScript numbers are modelled by `JsNum`: exact rationals plus the IEEE
special values `Infinity`, `-Infinity` and `NaN` (rationals stand in for
doubles; no claim below depends on rounding).  The regex-driven passes of
the service are embedded as character scans with an explicit fuel that is
always at least the remaining input length, which the scans consume
strictly. -/

namespace Formula

/-- An exact fraction with positive denominator, standing for a finite
JavaScript double.  (Mathlib's `ℚ` normalizes through `Nat.gcd`, which the
kernel cannot evaluate; fractions are kept unnormalized instead, with value
equality by cross-multiplication.) -/
structure JsRat where
  num : Int
  den : Int := 1
deriving Repr, DecidableEq

/-- The fraction `n / 1`. -/
def JsRat.ofInt (n : Int) : JsRat := { num := n }

/-- Fraction addition. -/
def fracAdd (a b : JsRat) : JsRat :=
  { num := a.num * b.den + b.num * a.den, den := a.den * b.den }

/-- Fraction negation. -/
def fracNeg (a : JsRat) : JsRat := { num := -a.num, den := a.den }

/-- Fraction subtraction. -/
def fracSub (a b : JsRat) : JsRat := fracAdd a (fracNeg b)

/-- Fraction multiplication. -/
def fracMul (a b : JsRat) : JsRat := { num := a.num * b.num, den := a.den * b.den }

/-- Fraction division (the divisor is known non-zero at the call site); the
denominator is kept positive. -/
def fracDiv (a b : JsRat) : JsRat :=
  if b.num < 0 then { num := -(a.num * b.den), den := a.den * (-b.num) }
  else { num := a.num * b.den, den := a.den * b.num }

/-- Value equality of fractions. -/
def fracEq (a b : JsRat) : Bool := a.num * b.den = b.num * a.den

/-- Value order of fractions (denominators are positive). -/
def fracLt (a b : JsRat) : Bool := a.num * b.den < b.num * a.den

/-- Truncation toward zero (`Int.tdiv` truncates toward zero and the
denominator is positive). -/
def fracTrunc (a : JsRat) : Int := Int.tdiv a.num a.den

/-- A JavaScript number: finite (exact fraction) or one of the IEEE special
values. -/
inductive JsNum where
  | finite (q : JsRat)
  | inf
  | negInf
  | nan
deriving Repr, DecidableEq

/-- Unary minus. -/
def jsNeg : JsNum → JsNum
  | .finite q => .finite (fracNeg q)
  | .inf => .negInf
  | .negInf => .inf
  | .nan => .nan

/-- Addition with IEEE special values. -/
def jsAdd : JsNum → JsNum → JsNum
  | .nan, _ => .nan
  | _, .nan => .nan
  | .inf, .negInf => .nan
  | .negInf, .inf => .nan
  | .inf, _ => .inf
  | _, .inf => .inf
  | .negInf, _ => .negInf
  | _, .negInf => .negInf
  | .finite a, .finite b => .finite (fracAdd a b)

/-- Subtraction. -/
def jsSub (a b : JsNum) : JsNum := jsAdd a (jsNeg b)

/-- Multiplication with IEEE special values. -/
def jsMul : JsNum → JsNum → JsNum
  | .nan, _ => .nan
  | _, .nan => .nan
  | .inf, .inf => .inf
  | .inf, .negInf => .negInf
  | .negInf, .inf => .negInf
  | .negInf, .negInf => .inf
  | .inf, .finite b => if b.num = 0 then .nan else if b.num > 0 then .inf else .negInf
  | .finite a, .inf => if a.num = 0 then .nan else if a.num > 0 then .inf else .negInf
  | .negInf, .finite b => if b.num = 0 then .nan else if b.num > 0 then .negInf else .inf
  | .finite a, .negInf => if a.num = 0 then .nan else if a.num > 0 then .negInf else .inf
  | .finite a, .finite b => .finite (fracMul a b)

/-- Division with IEEE special values; in particular a positive finite value
divided by zero is `Infinity`, not an error. -/
def jsDiv : JsNum → JsNum → JsNum
  | .nan, _ => .nan
  | _, .nan => .nan
  | .inf, .inf => .nan
  | .inf, .negInf => .nan
  | .negInf, .inf => .nan
  | .negInf, .negInf => .nan
  | .inf, .finite b => if b.num < 0 then .negInf else .inf
  | .negInf, .finite b => if b.num < 0 then .inf else .negInf
  | .finite _, .inf => .finite (JsRat.ofInt 0)
  | .finite _, .negInf => .finite (JsRat.ofInt 0)
  | .finite a, .finite b =>
    if b.num = 0 then
      if a.num = 0 then .nan else if a.num > 0 then .inf else .negInf
    else .finite (fracDiv a b)

/-- Remainder (`%`): sign follows the dividend, as in JavaScript. -/
def jsMod : JsNum → JsNum → JsNum
  | .nan, _ => .nan
  | _, .nan => .nan
  | .inf, _ => .nan
  | .negInf, _ => .nan
  | .finite a, .inf => .finite a
  | .finite a, .negInf => .finite a
  | .finite a, .finite b =>
    if b.num = 0 then .nan
    else .finite (fracSub a (fracMul b (JsRat.ofInt (fracTrunc (fracDiv a b)))))

/-- `===` on numbers: `NaN` is not equal to itself. -/
def jsNumEq : JsNum → JsNum → Bool
  | .finite a, .finite b => fracEq a b
  | .inf, .inf => true
  | .negInf, .negInf => true
  | _, _ => false

/-- `<` on numbers: comparisons involving `NaN` are false. -/
def jsNumLt : JsNum → JsNum → Bool
  | .nan, _ => false
  | _, .nan => false
  | .inf, _ => false
  | _, .inf => true
  | .negInf, .negInf => false
  | .negInf, _ => true
  | _, .negInf => false
  | .finite a, .finite b => fracLt a b

/-- A scalar as the evaluator passes it around (`any` in the source):
string, number or `null`. -/
inductive EvalScalar where
  | str (s : String)
  | num (n : JsNum)
  | nullv
deriving Repr, DecidableEq

/-- Named characters used by the scans. -/
def chPlus : Char := Char.ofNat 43

/-- `-` -/
def chMinus : Char := Char.ofNat 45

/-- `*` -/
def chStar : Char := Char.ofNat 42

/-- `/` -/
def chSlash : Char := Char.ofNat 47

/-- `%` -/
def chPercent : Char := Char.ofNat 37

/-- `.` -/
def chDot : Char := Char.ofNat 46

/-- `(` -/
def chLp : Char := Char.ofNat 40

/-- `)` -/
def chRp : Char := Char.ofNat 41

/-- `,` -/
def chComma : Char := Char.ofNat 44

/-- `"` -/
def chDq : Char := Char.ofNat 34

/-- `'` -/
def chSq : Char := Char.ofNat 39

/-- `=` -/
def chEq : Char := Char.ofNat 61

/-- `!` -/
def chBang : Char := Char.ofNat 33

/-- `>` -/
def chGt : Char := Char.ofNat 62

/-- `<` -/
def chLt : Char := Char.ofNat 60

/-- Whitespace as matched by the scans (`\s`, restricted to ASCII). -/
def isSpaceChar (c : Char) : Bool :=
  c = Char.ofNat 32 || c = Char.ofNat 9 || c = Char.ofNat 10 || c = Char.ofNat 13

/-- `s.trim()` (ASCII whitespace). -/
def trimS (s : String) : String :=
  String.mk (((s.data.dropWhile isSpaceChar).reverse.dropWhile isSpaceChar).reverse)

/-- `s.toUpperCase()` (ASCII). -/
def upperS (s : String) : String := String.mk (s.data.map Char.toUpper)

/-- `s.toLowerCase()` (ASCII). -/
def lowerS (s : String) : String := String.mk (s.data.map Char.toLower)

/-- Exact prefix match; returns the remainder after the pattern. -/
def matchPrefix : List Char → List Char → Option (List Char)
  | [], cs => some cs
  | _ :: _, [] => none
  | p :: ps, c :: cs => if p = c then matchPrefix ps cs else none

/-- `s.split(pat)` on a non-empty pattern. -/
def splitOnPatGo (pat : List Char) : Nat → List Char → List Char → List (List Char)
  | 0, acc, cs => [acc.reverse ++ cs]
  | _ + 1, acc, [] => [acc.reverse]
  | fuel + 1, acc, c :: cs =>
    match matchPrefix pat (c :: cs) with
    | some rest => acc.reverse :: splitOnPatGo pat fuel [] rest
    | none => splitOnPatGo pat fuel (c :: acc) cs

/-- `s.split(pat)` as strings. -/
def splitS (s pat : String) : List String :=
  (splitOnPatGo pat.data s.data.length [] s.data).map String.mk

/-- `s.includes(pat)`. -/
def containsPat : List Char → List Char → Bool
  | pat, [] => (matchPrefix pat []).isSome
  | pat, c :: cs => (matchPrefix pat (c :: cs)).isSome || containsPat pat cs

/-- `s.includes(pat)` as strings. -/
def containsS (s pat : String) : Bool := containsPat pat.data s.data

/-- Splits a character list at the first occurrence of `stop`, returning the
prefix and the remainder after `stop`. -/
def splitAtChar (stop : Char) : List Char → Option (List Char × List Char)
  | [] => none
  | c :: cs =>
    if c = stop then some ([], cs)
    else
      match splitAtChar stop cs with
      | some (pre, post) => some (c :: pre, post)
      | none => none

/-- `value.replace(/"/g, String.fromCharCode(92, 34))`: escape embedded
double quotes. -/
def escapeDq (s : String) : String :=
  String.mk (s.data.foldr
    (fun c acc => if c = chDq then Char.ofNat 92 :: chDq :: acc else c :: acc) [])

/-- A row (`Record<string, any>`). -/
def RowMap := List (String × EvalScalar)

/-- Property lookup on a row. -/
def rowLookup (row : RowMap) (key : String) : Option EvalScalar :=
  match row.find? fun kv => kv.1 = key with
  | some kv => some kv.2
  | none => none

/-- Placeholder rendering of a finite number (`String(n)`); exact for
integers, which is all any claim exercises.  (JavaScript shortest-roundtrip
float printing is not modelled.) -/
def jsNumToString : JsNum → String
  | .finite q =>
    if q.den = 1 then toString q.num
    else if Int.emod q.num q.den = 0 then toString (Int.tdiv q.num q.den)
    else toString q.num ++ ("/") ++ toString q.den
  | .inf => ("Infinity")
  | .negInf => ("-Infinity")
  | .nan => ("NaN")

/-- `String(value)` on a scalar. -/
def scalarToString : EvalScalar → String
  | .str s => s
  | .num n => jsNumToString n
  | .nullv => ("null")

/-- How `replaceFieldReferences` renders one resolved field: `null` for
missing/null values, quoted (with escaping) for strings, `String(value)`
otherwise. -/
def renderField (row : RowMap) (name : String) : String :=
  match rowLookup row name with
  | none => ("null")
  | some EvalScalar.nullv => ("null")
  | some (EvalScalar.str s) => chDq.toString ++ escapeDq s ++ chDq.toString
  | some (EvalScalar.num n) => jsNumToString n

/-- The scan behind `formula.replace(/\x7b([^\x7d]+)\x7d/g, ...)`. -/
def rfrGo (row : RowMap) : Nat → List Char → List Char
  | 0, cs => cs
  | _ + 1, [] => []
  | fuel + 1, c :: cs =>
    if c = lbrace then
      match splitAtChar rbrace cs with
      | some (inner, rest) =>
        if inner.isEmpty then c :: rfrGo row fuel cs
        else (renderField row (trimS (String.mk inner))).data ++ rfrGo row fuel rest
      | none => c :: rfrGo row fuel cs
    else c :: rfrGo row fuel cs

/-- `replaceFieldReferences(formula, row)`. -/
def replaceFieldReferences (formula : String) (row : RowMap) : String :=
  String.mk (rfrGo row formula.data.length formula.data)

/-- Decimal digit-list value. -/
def natOfDigits (ds : List Char) : Nat :=
  ds.foldl (fun acc c => acc * 10 + (c.toNat - 48)) 0

/-- `Number(trimmed)` for the strings the evaluator feeds it: empty/blank
input is `0`, an optional sign followed by decimal digits (with an optional
fractional part) parses exactly, `Infinity` forms parse, anything else is
`NaN` (`none`). -/
def jsNumberParse (s : String) : Option JsNum :=
  let t := trimS s
  if t = ("") then some (JsNum.finite (JsRat.ofInt 0))
  else if t = ("Infinity") || t = ("+Infinity") then some JsNum.inf
  else if t = ("-Infinity") then some JsNum.negInf
  else
    let core :=
      match t.data with
      | c :: rest =>
        if c = chMinus then some (true, rest)
        else if c = chPlus then some (false, rest)
        else some (false, c :: rest)
      | [] => none
    match core with
    | none => none
    | some (neg, digits) =>
      let intPart := digits.takeWhile Char.isDigit
      let rest1 := digits.drop intPart.length
      let parsed :=
        match rest1 with
        | [] => if intPart.isEmpty then none else some (JsRat.ofInt (natOfDigits intPart))
        | d :: fracAndMore =>
          if d = chDot then
            let fracPart := fracAndMore.takeWhile Char.isDigit
            let rest2 := fracAndMore.drop fracPart.length
            if rest2.isEmpty && !(intPart.isEmpty && fracPart.isEmpty) then
              some { num := (natOfDigits intPart * 10 ^ fracPart.length +
                       natOfDigits fracPart : Nat),
                     den := ((10 : Nat) ^ fracPart.length : Nat) }
            else none
          else none
      match parsed with
      | some q => some (JsNum.finite (if neg then fracNeg q else q))
      | none => none

/-- `cleanValue`: strip matching surrounding quotes, else try `Number`, else
`null` literal, else the trimmed text. -/
def cleanValue (value : String) : EvalScalar :=
  let trimmed := trimS value
  let isQuoted (q : Char) : Bool :=
    trimmed.data.head? = some q && trimmed.data.getLast? = some q
  if isQuoted chDq || isQuoted chSq then
    .str (String.mk (trimmed.data.drop 1).dropLast)
  else
    match jsNumberParse trimmed with
    | some n => .num n
    | none => if trimmed = ("null") then .nullv else .str trimmed

/-- `evaluateExpression`: field substitution then `cleanValue`. -/
def evaluateExpression (expr : String) (row : RowMap) : EvalScalar :=
  cleanValue (replaceFieldReferences expr row)

/-- `Number(x)` on an already-cleaned scalar. -/
def toNumber : EvalScalar → JsNum
  | .num n => n
  | .nullv => .finite (JsRat.ofInt 0)
  | .str s =>
    match jsNumberParse s with
    | some n => n
    | none => .nan

/-- Strict equality `===` between cleaned scalars. -/
def strictEq : EvalScalar → EvalScalar → Bool
  | .str a, .str b => a = b
  | .num a, .num b => jsNumEq a b
  | .nullv, .nullv => true
  | _, _ => false

/-- `evaluateCondition`: the four comparison forms, probed in source order
(`=` before `!=`, so an `=` anywhere — including inside `!=` — routes to the
equality branch; `split` cuts at every occurrence and the first two pieces
are used). -/
def evaluateCondition (condition : String) (row : RowMap) : Bool :=
  let processed := replaceFieldReferences condition row
  let pieces (sep : String) : String × String :=
    match splitS processed sep with
    | [] => (("") , (""))
    | [a] => (a, (""))
    | a :: b :: _ => (a, b)
  if containsS processed (chEq.toString) then
    let p := pieces (chEq.toString)
    strictEq (cleanValue (trimS p.1)) (cleanValue (trimS p.2))
  else if containsS processed (chBang.toString ++ chEq.toString) then
    let p := pieces (chBang.toString ++ chEq.toString)
    !(strictEq (cleanValue (trimS p.1)) (cleanValue (trimS p.2)))
  else if containsS processed (chGt.toString) then
    let p := pieces (chGt.toString)
    jsNumLt (toNumber (cleanValue (trimS p.2))) (toNumber (cleanValue (trimS p.1)))
  else if containsS processed (chLt.toString) then
    let p := pieces (chLt.toString)
    jsNumLt (toNumber (cleanValue (trimS p.1))) (toNumber (cleanValue (trimS p.2)))
  else false

/-- Case-insensitive prefix match; returns the remainder after the pattern. -/
def matchCI : List Char → List Char → Option (List Char)
  | [], cs => some cs
  | _ :: _, [] => none
  | p :: ps, c :: cs => if p.toLower = c.toLower then matchCI ps cs else none

/-- The scan behind one global pass of `formula.replace(/NAME\(([^)]+)\)/gi,
...)`: at each position, match the (case-insensitive) function name, an
opening parenthesis, one or more non-`)` characters and the closing
parenthesis; matches are replaced and scanning resumes after them. -/
def scanFnGo (pattern : List Char) (repl : String → String) :
    Nat → List Char → List Char
  | 0, cs => cs
  | _ + 1, [] => []
  | fuel + 1, c :: cs =>
    match matchCI pattern (c :: cs) with
    | some afterOpen =>
      match splitAtChar chRp afterOpen with
      | some (inner, rest) =>
        if inner.isEmpty then c :: scanFnGo pattern repl fuel cs
        else (repl (String.mk inner)).data ++ scanFnGo pattern repl fuel rest
      | none => c :: scanFnGo pattern repl fuel cs
    | none => c :: scanFnGo pattern repl fuel cs

/-- One global regex pass for a one-argument (or raw-argument) function. -/
def scanFn (name : String) (repl : String → String) (formula : String) : String :=
  String.mk (scanFnGo (name.data ++ [chLp]) repl formula.data.length formula.data)

/-- `evaluateStringFunctions`: the `UPPER`, `LOWER` and `CONCAT` passes, in
source order. -/
def evaluateStringFunctions (formula : String) (row : RowMap) : String :=
  let f1 := scanFn ("UPPER")
    (fun arg =>
      chDq.toString ++ upperS (scalarToString (evaluateExpression arg row)) ++
        chDq.toString) formula
  let f2 := scanFn ("LOWER")
    (fun arg =>
      chDq.toString ++ lowerS (scalarToString (evaluateExpression arg row)) ++
        chDq.toString) f1
  scanFn ("CONCAT")
    (fun args =>
      let parts := (splitS args (chComma.toString)).map fun arg =>
        scalarToString (evaluateExpression (trimS arg) row)
      chDq.toString ++ String.join parts ++ chDq.toString) f2

/-- The scan behind `formula.replace(/IF\(([^,]+),([^,]+),([^)]+)\)/gi, ...)`. -/
def scanIfGo (row : RowMap) : Nat → List Char → List Char
  | 0, cs => cs
  | _ + 1, [] => []
  | fuel + 1, c :: cs =>
    match matchCI [Char.ofNat 73, Char.ofNat 70, chLp] (c :: cs) with
    | some afterOpen =>
      match splitAtChar chComma afterOpen with
      | some (condPart, rest1) =>
        match splitAtChar chComma rest1 with
        | some (truePart, rest2) =>
          match splitAtChar chRp rest2 with
          | some (falsePart, rest3) =>
            if condPart.isEmpty || truePart.isEmpty || falsePart.isEmpty then
              c :: scanIfGo row fuel cs
            else
              let conditionResult := evaluateCondition (trimS (String.mk condPart)) row
              let branch :=
                if conditionResult then trimS (String.mk truePart)
                else trimS (String.mk falsePart)
              branch.data ++ scanIfGo row fuel rest3
          | none => c :: scanIfGo row fuel cs
        | none => c :: scanIfGo row fuel cs
      | none => c :: scanIfGo row fuel cs
    | none => c :: scanIfGo row fuel cs

/-- `evaluateConditionalFunctions`: the single global `IF` pass. -/
def evaluateConditionalFunctions (formula : String) (row : RowMap) : String :=
  String.mk (scanIfGo row formula.data.length formula.data)

/-- Arithmetic tokens. -/
inductive MathTok where
  | num (q : JsRat)
  | plus | minus | star | slash | percent | lparen | rparen
deriving Repr, DecidableEq

/-- Tokenizer for the restricted arithmetic character set (fuel is at least
the remaining length, which every step strictly consumes). -/
def tokenizeGo : Nat → List Char → Option (List MathTok)
  | _, [] => some []
  | 0, _ :: _ => none
  | fuel + 1, c :: cs =>
    if isSpaceChar c then tokenizeGo fuel cs
    else if c = chPlus then (tokenizeGo fuel cs).map fun ts => MathTok.plus :: ts
    else if c = chMinus then (tokenizeGo fuel cs).map fun ts => MathTok.minus :: ts
    else if c = chStar then (tokenizeGo fuel cs).map fun ts => MathTok.star :: ts
    else if c = chSlash then (tokenizeGo fuel cs).map fun ts => MathTok.slash :: ts
    else if c = chPercent then (tokenizeGo fuel cs).map fun ts => MathTok.percent :: ts
    else if c = chLp then (tokenizeGo fuel cs).map fun ts => MathTok.lparen :: ts
    else if c = chRp then (tokenizeGo fuel cs).map fun ts => MathTok.rparen :: ts
    else if c.isDigit || c = chDot then
      let intPart := (c :: cs).takeWhile Char.isDigit
      let rest1 := (c :: cs).drop intPart.length
      match rest1 with
      | d :: afterDot =>
        if d = chDot then
          let fracPart := afterDot.takeWhile Char.isDigit
          let rest2 := afterDot.drop fracPart.length
          if intPart.isEmpty && fracPart.isEmpty then none
          else
            (tokenizeGo fuel rest2).map fun ts =>
              MathTok.num { num := (natOfDigits intPart * 10 ^ fracPart.length +
                              natOfDigits fracPart : Nat),
                            den := ((10 : Nat) ^ fracPart.length : Nat) } :: ts
        else
          (tokenizeGo fuel rest1).map fun ts =>
            MathTok.num (JsRat.ofInt (natOfDigits intPart)) :: ts
      | [] => some [MathTok.num (JsRat.ofInt (natOfDigits intPart))]
    else none

/-- Tokenizes a whole character list. -/
def tokenize (cs : List Char) : Option (List MathTok) :=
  tokenizeGo cs.length cs

mutual

/-- `expression := term (("+" | "-") term)*` -/
def parseExpr : Nat → List MathTok → Option (JsNum × List MathTok)
  | 0, _ => none
  | fuel + 1, ts =>
    match parseTerm fuel ts with
    | none => none
    | some (v, rest) => parseExprLoop fuel v rest

/-- Left-associative fold of additive operators. -/
def parseExprLoop : Nat → JsNum → List MathTok → Option (JsNum × List MathTok)
  | 0, _, _ => none
  | fuel + 1, acc, ts =>
    match ts with
    | MathTok.plus :: rest =>
      match parseTerm fuel rest with
      | none => none
      | some (v, rest2) => parseExprLoop fuel (jsAdd acc v) rest2
    | MathTok.minus :: rest =>
      match parseTerm fuel rest with
      | none => none
      | some (v, rest2) => parseExprLoop fuel (jsSub acc v) rest2
    | _ => some (acc, ts)

/-- `term := factor (("*" | "/" | "%") factor)*` -/
def parseTerm : Nat → List MathTok → Option (JsNum × List MathTok)
  | 0, _ => none
  | fuel + 1, ts =>
    match parseFactor fuel ts with
    | none => none
    | some (v, rest) => parseTermLoop fuel v rest

/-- Left-associative fold of multiplicative operators. -/
def parseTermLoop : Nat → JsNum → List MathTok → Option (JsNum × List MathTok)
  | 0, _, _ => none
  | fuel + 1, acc, ts =>
    match ts with
    | MathTok.star :: rest =>
      match parseFactor fuel rest with
      | none => none
      | some (v, rest2) => parseTermLoop fuel (jsMul acc v) rest2
    | MathTok.slash :: rest =>
      match parseFactor fuel rest with
      | none => none
      | some (v, rest2) => parseTermLoop fuel (jsDiv acc v) rest2
    | MathTok.percent :: rest =>
      match parseFactor fuel rest with
      | none => none
      | some (v, rest2) => parseTermLoop fuel (jsMod acc v) rest2
    | _ => some (acc, ts)

/-- `factor := ("+" | "-")* (number | "(" expression ")")` -/
def parseFactor : Nat → List MathTok → Option (JsNum × List MathTok)
  | 0, _ => none
  | fuel + 1, ts =>
    match ts with
    | MathTok.plus :: rest => parseFactor fuel rest
    | MathTok.minus :: rest =>
      match parseFactor fuel rest with
      | none => none
      | some (v, rest2) => some (jsNeg v, rest2)
    | MathTok.num q :: rest => some (JsNum.finite q, rest)
    | MathTok.lparen :: rest =>
      match parseExpr fuel rest with
      | none => none
      | some (v, rest2) =>
        match rest2 with
        | MathTok.rparen :: rest3 => some (v, rest3)
        | _ => none
    | _ => none

end

/-- Full evaluation of a restricted arithmetic expression string, standing
for `new Function(...)()`; `none` is the thrown `SyntaxError` the source
catches. -/
def evalArith (s : String) : Option JsNum :=
  match tokenize s.data with
  | none => none
  | some ts =>
    match parseExpr (4 * (ts.length + 1)) ts with
    | some (v, []) => some v
    | _ => none

/-- Membership in the restricted character set `[\d\s+\-*\/.()%]`. -/
def mathCharOk (c : Char) : Bool :=
  c.isDigit || isSpaceChar c || c = chPlus || c = chMinus || c = chStar ||
    c = chSlash || c = chDot || c = chLp || c = chRp || c = chPercent

/-- `evaluateMathExpression`: unquote a pure string; numerically evaluate an
expression over the restricted character set (a `SyntaxError` inside the
hosted evaluation is caught and the text returned); otherwise return the
text. -/
def evaluateMathExpression (expression : String) : EvalScalar :=
  let trimmed := trimS expression
  if trimmed.data.head? = some chDq && trimmed.data.getLast? = some chDq then
    .str (String.mk (trimmed.data.drop 1).dropLast)
  else if !trimmed.data.isEmpty && trimmed.data.all mathCharOk then
    match evalArith trimmed with
    | some n => .num n
    | none => .str trimmed
  else .str trimmed

/-- `FormulaEvaluatorService.evaluate`: the four passes in order.  The
source wraps them in a try/catch that rethrows as a `BadRequestException`
(`FormulaError`), but none of the passes can throw — the hosted arithmetic
evaluation is guarded by its own catch — so the result is always `ok`. -/
def evaluate (formula : String) (row : RowMap) : Except String EvalScalar :=
  let p1 := replaceFieldReferences formula row
  let p2 := evaluateStringFunctions p1 row
  let p3 := evaluateConditionalFunctions p2 row
  .ok (evaluateMathExpression p3)

end Formula

/-! ## Support definitions for the statements below -/

namespace Internal

/-- The shape of a filter value: the data the generated SQL text may depend
on (`Array.isArray` and, for arrays, the element count). -/
def valueShape (v : JsValue) : Option Nat :=
  (v.asArr).map List.length

/-- Two executor filters that differ at most in their values (same field,
same operator, same value shape). -/
def SameShape (f g : FilterExpression) : Prop :=
  f.field = g.field ∧ f.operator = g.operator ∧ valueShape f.value = valueShape g.value

/-- Lifts `SameShape` to the optional filter lists of two plans. -/
def FiltersSameShape : Option (List FilterExpression) → Option (List FilterExpression) → Prop
  | none, none => True
  | some fs, some gs => List.Forall₂ SameShape fs gs
  | _, _ => False

/-- The bound parameters a single filter contributes (in emission order). -/
def filterParamsSpec (columns : List TableColumn) (f : FilterExpression) : List JsValue :=
  match findColumn columns f.field with
  | none => []
  | some _ =>
    match f.operator with
    | .eq => [.str (jsToString f.value)]
    | .ne => [.str (jsToString f.value)]
    | .gt => [f.value]
    | .gte => [f.value]
    | .lt => [f.value]
    | .lte => [f.value]
    | .like => [f.value]
    | .isIn =>
      match f.value.asArr with
      | some xs => xs.map fun v => .str (jsToString v)
      | none => []
    | .between =>
      match f.value.asArr with
      | some xs => if xs.length = 2 then xs.take 2 else []
      | none => []

/-- Columns of the concrete table used in the counterexamples. -/
def cCols : List TableColumn :=
  [{ name := ("a"), physicalColumnName := ("a_phys"), type := ColumnType.TEXT_SHORT },
   { name := ("n"), physicalColumnName := ("n_phys"), type := ColumnType.NUMBER_INT }]

/-- An internal source. -/
def cSource : Source := { type := SourceType.internal_table, tableId := some ("t1") }

/-- An `in` filter over a one-element array. -/
def cInF1 : FilterExpression :=
  { field := ("a"), operator := FilterOp.isIn, value := JsValue.arr [JsValue.str ("x")] }

/-- The same filter with only its value changed (a two-element array). -/
def cInF2 : FilterExpression :=
  { field := ("a"), operator := FilterOp.isIn,
    value := JsValue.arr [JsValue.str ("x"), JsValue.str ("y")] }

/-- `cInF1` with a different one-element value (same shape). -/
def cInF1b : FilterExpression :=
  { field := ("a"), operator := FilterOp.isIn, value := JsValue.arr [JsValue.str ("z")] }

/-- LQP carrying `cInF1`. -/
def cInLqp1 : Lqp := { source := cSource, filters := some [cInF1] }

/-- LQP carrying `cInF2` — identical to `cInLqp1` except for the filter
value. -/
def cInLqp2 : Lqp := { source := cSource, filters := some [cInF2] }

/-- LQP whose only sort references a field matching no column. -/
def cSortUnknownLqp : Lqp :=
  { source := cSource, sorts := some [{ field := ("zz"), direction := SortDir.asc }] }

/-- The same LQP with the unknown sort removed. -/
def cSortEmptyLqp : Lqp :=
  { source := cSource, sorts := some [] }

/-- A concrete table of 25 live rows. -/
def tbl25 : List Row :=
  (List.range 25).map fun i =>
    { id := toString i, data := [], version := 1, createdAt := i, deletedAt := none }

/-- LQP asking for page `{limit: 10, offset: 20}`. -/
def pageLqp20 : Lqp :=
  { source := cSource, pagination := some { limit := some 10, offset := some 20 } }

/-- LQP asking for page `{limit: 10, offset: 0}`. -/
def pageLqp0 : Lqp :=
  { source := cSource, pagination := some { limit := some 10, offset := some 0 } }

/-- The result page for `{limit: 10, offset: 20}` on `tbl25`. -/
def page20Result : QueryResult :=
  { rows := (tbl25.drop 20).take 10, total := 25, hasMore := false }

/-- The result page for `{limit: 10, offset: 0}` on `tbl25`. -/
def page0Result : QueryResult :=
  { rows := tbl25.take 10, total := 25, hasMore := true }

end Internal

namespace Rows

/-- A `ColumnsService` stand-in whose validation accepts everything (the
scenario uses an empty column list, so it is never consulted). -/
def svcId : ColumnsSvc := { validateColumnType := fun _ _ => true, coerceValue := fun _ v => some v }

/-- A table holding one live row at version 1. -/
def dbV1 : List Row :=
  [{ id := ("r1"), data := [(("a_phys"), JsValue.str ("v"))], version := 1 }]

/-- The update payload carrying expected version 1. -/
def dtoV1 : UpdateRowDto := { data := [], version := some 1 }

/-- The row after the first successful update (the empty column list
validates to an empty attribute map). -/
def rowV2 : Row := { id := ("r1"), data := [], version := 2, updatedBy := some ("u1") }

end Rows

namespace Formula

/-- The spec example formula: a field division. -/
def divFormula : String := ("\x7ba\x7d / \x7bb\x7d")

/-- The spec example row: `{a: 1, b: 0}`. -/
def divRow : RowMap :=
  [(("a"), EvalScalar.num (JsNum.finite (JsRat.ofInt 1))),
   (("b"), EvalScalar.num (JsNum.finite (JsRat.ofInt 0)))]

end Formula

/-! ## Theorems -/

/-- C2 counterexample: `evaluate("\x7ba\x7d / \x7bb\x7d", \x7ba: 1, b: 0\x7d)` does
not fail — it returns the JavaScript number `Infinity`, because `1 / 0`
survives the restricted-character-set check and the hosted evaluation yields
`Infinity` without throwing. -/
theorem c2_divide_by_zero_returns_infinity :
    Formula.evaluate Formula.divFormula Formula.divRow =
      Except.ok (Formula.EvalScalar.num Formula.JsNum.inf) := by
  decide

/-- C2 (amended): division of a positive finite number by zero yields
`Infinity` in the numeric evaluator, and the spec example
`evaluate("\x7ba\x7d / \x7bb\x7d", \x7ba: 1, b: 0\x7d)` accordingly returns
`Infinity` with no `FormulaError`. -/
theorem c2_amended_division_by_zero :
    (∀ q : Formula.JsRat, 0 < q.num →
      Formula.jsDiv (Formula.JsNum.finite q) (Formula.JsNum.finite (Formula.JsRat.ofInt 0)) =
        Formula.JsNum.inf) ∧
    Formula.evaluate Formula.divFormula Formula.divRow =
      Except.ok (Formula.EvalScalar.num Formula.JsNum.inf) := by
  constructor
  · intro q hq
    have h0 : q.num ≠ 0 := ne_of_gt hq
    simp [Formula.jsDiv, Formula.JsRat.ofInt, h0, hq]
  · decide

/-- C2 witness: the amended statement applied at `q = 1`. -/
theorem c2_amended_division_by_zero_witness :
    (0 : Int) < (Formula.JsRat.ofInt 1).num ∧
      Formula.jsDiv (Formula.JsNum.finite (Formula.JsRat.ofInt 1))
        (Formula.JsNum.finite (Formula.JsRat.ofInt 0)) = Formula.JsNum.inf :=
  ⟨by norm_num [Formula.JsRat.ofInt],
   c2_amended_division_by_zero.1 (Formula.JsRat.ofInt 1) (by norm_num [Formula.JsRat.ofInt])⟩

/-- C3 counterexample: a logical group with empty `conditions` is not
rejected by either relational adapter — `buildSingleFilter` returns the
empty SQL fragment with no error, for both `and` and `or`. -/
theorem c3_empty_group_not_rejected :
    Dal.pgBuildSingleFilter (.mk none Dal.FilterOperator.andOp JsValue.null []) 1 =
      Except.ok (("") , [], 1) ∧
    Dal.pgBuildSingleFilter (.mk none Dal.FilterOperator.orOp JsValue.null []) 1 =
      Except.ok (("") , [], 1) ∧
    Dal.myBuildSingleFilter (.mk none Dal.FilterOperator.andOp JsValue.null []) =
      Except.ok (("") , []) ∧
    Dal.myBuildSingleFilter (.mk none Dal.FilterOperator.orOp JsValue.null []) =
      Except.ok (("") , []) := by
  refine ⟨rfl, rfl, rfl, rfl⟩

/-- C3 (amended): in both relational adapters a field-based filter with no
`field` fails with the invalid-filter error, while a logical `and`/`or`
group with empty `conditions` is silently rendered as an empty fragment
(returned without error). -/
theorem c3_amended_filter_validation :
    (∀ (op : Dal.FilterOperator) (v : JsValue) (conds : List Dal.FilterExpression)
       (pc : Nat), op ≠ Dal.FilterOperator.andOp → op ≠ Dal.FilterOperator.orOp →
      Dal.pgBuildSingleFilter (.mk none op v conds) pc =
        Except.error ("Filter field is required for non-logical operators") ∧
      Dal.myBuildSingleFilter (.mk none op v conds) =
        Except.error ("Filter field is required for non-logical operators")) ∧
    (∀ (fld : Option String) (op : Dal.FilterOperator) (v : JsValue) (pc : Nat),
      op = Dal.FilterOperator.andOp ∨ op = Dal.FilterOperator.orOp →
      Dal.pgBuildSingleFilter (.mk fld op v []) pc = Except.ok (("") , [], pc) ∧
      Dal.myBuildSingleFilter (.mk fld op v []) = Except.ok (("") , [])) := by
  constructor
  · intro op v conds pc hand hor
    have hcase : ¬(op = Dal.FilterOperator.andOp ∨ op = Dal.FilterOperator.orOp) := by
      rintro (h | h) <;> [exact hand h; exact hor h]
    constructor
    · rw [Dal.pgBuildSingleFilter.eq_def]
      simp only [Dal.FilterExpression.field, if_neg hcase]
    · rw [Dal.myBuildSingleFilter.eq_def]
      simp only [Dal.FilterExpression.field, if_neg hcase]
  · intro fld op v pc hlog
    constructor
    · rw [Dal.pgBuildSingleFilter.eq_def]
      simp only [if_pos hlog, List.isEmpty_nil, if_pos]
    · rw [Dal.myBuildSingleFilter.eq_def]
      simp only [if_pos hlog, List.isEmpty_nil, if_pos]

/-- C3 witness: the amended statement applied to an `eq` filter without a
field and an empty `and` group. -/
theorem c3_amended_filter_validation_witness :
    (Dal.FilterOperator.eq ≠ Dal.FilterOperator.andOp ∧
     Dal.FilterOperator.eq ≠ Dal.FilterOperator.orOp ∧
     Dal.pgBuildSingleFilter (.mk none Dal.FilterOperator.eq (JsValue.int 5) []) 1 =
       Except.error ("Filter field is required for non-logical operators")) ∧
    (Dal.pgBuildSingleFilter (.mk none Dal.FilterOperator.andOp JsValue.null []) 3 =
       Except.ok (("") , [], 3)) :=
  ⟨⟨by decide, by decide,
    (c3_amended_filter_validation.1 Dal.FilterOperator.eq (JsValue.int 5) [] 1
      (by decide) (by decide)).1⟩,
   (c3_amended_filter_validation.2 none Dal.FilterOperator.andOp JsValue.null 3
      (Or.inl rfl)).1⟩

/-- C8 counterexample: on a not-yet-connected adapter every `testConnection`
implementation throws (`Not connected. Call connect() first.`) instead of
returning `false`. -/
theorem c8_test_connection_throws_when_disconnected :
    Adapters.pgTestConnection none =
      Except.error ("Not connected. Call connect() first.") ∧
    Adapters.myTestConnection none =
      Except.error ("Not connected. Call connect() first.") ∧
    Adapters.mongoTestConnection none =
      Except.error ("Not connected. Call connect() first.") :=
  ⟨rfl, rfl, rfl⟩

/-- C8 (amended): once connected, `testConnection` never throws for any of
the three adapters: it returns `true` exactly when the liveness probe
succeeds (for the SQL adapters, when the probe query returns rows) and
`false` on any probe failure; called before `connect()` it throws. -/
theorem c8_amended_test_connection :
    (∀ p : Adapters.PgPool, ∃ b, Adapters.pgTestConnection (some p) = Except.ok b ∧
      (b = true ↔ ∃ rows, p.queryRows = Except.ok rows ∧ rows.length > 0)) ∧
    (∀ p : Adapters.MyPool, ∃ b, Adapters.myTestConnection (some p) = Except.ok b ∧
      (b = true ↔ ∃ rows, p.queryRows = Except.ok rows ∧ rows.length > 0)) ∧
    (∀ d : Adapters.MongoDb, ∃ b, Adapters.mongoTestConnection (some d) = Except.ok b ∧
      (b = true ↔ d.pingResult = Except.ok ())) := by
  refine ⟨fun p => ?_, fun p => ?_, fun d => ?_⟩
  · match hq : p.queryRows with
    | .ok rows =>
      refine ⟨decide (rows.length > 0),
        by simp only [Adapters.pgTestConnection, hq], ?_, ?_⟩
      · intro h
        exact ⟨rows, rfl, of_decide_eq_true h⟩
      · rintro ⟨r2, hr2, hlen⟩
        cases hr2
        exact decide_eq_true hlen
    | .error e =>
      refine ⟨false, by simp only [Adapters.pgTestConnection, hq], ?_, ?_⟩
      · intro h
        exact absurd h (by decide)
      · rintro ⟨rows, hrows, -⟩
        cases hrows
  · match hq : p.queryRows with
    | .ok rows =>
      refine ⟨decide (rows.length > 0),
        by simp only [Adapters.myTestConnection, hq], ?_, ?_⟩
      · intro h
        exact ⟨rows, rfl, of_decide_eq_true h⟩
      · rintro ⟨r2, hr2, hlen⟩
        cases hr2
        exact decide_eq_true hlen
    | .error e =>
      refine ⟨false, by simp only [Adapters.myTestConnection, hq], ?_, ?_⟩
      · intro h
        exact absurd h (by decide)
      · rintro ⟨rows, hrows, -⟩
        cases hrows
  · match hq : d.pingResult with
    | .ok u =>
      refine ⟨true, by simp only [Adapters.mongoTestConnection, hq], ?_⟩
      cases u
      simp
    | .error e =>
      refine ⟨false, by simp only [Adapters.mongoTestConnection, hq], ?_, ?_⟩
      · intro h
        exact absurd h (by decide)
      · intro hc
        cases hc

/-- Helper: when every attempt fails, the connect loop exhausts its
iterations and sleeps `2^(r+1)·1000, …` between attempts. -/
theorem mongoConnectGo_allFail (f : Nat → Bool) (m : Nat) (hf : ∀ k, f k = false) :
    ∀ (fuel r : Nat) (d : List Nat), r + fuel = m →
      Adapters.mongoConnectGo f m fuel r d =
        (false, d ++ (List.range' (r + 1) (fuel - 1)).map fun k => 2 ^ k * 1000) := by
  intro fuel
  induction fuel with
  | zero => intro r d hm; simp [Adapters.mongoConnectGo]
  | succ n ih =>
    intro r d hm
    rw [Adapters.mongoConnectGo]
    rw [hf r]
    simp only [Bool.false_eq_true, if_false]
    by_cases hlt : r + 1 < m
    · have hn : 1 ≤ n := by omega
      rw [if_pos hlt, ih (r + 1) _ (by omega)]
      have hr : List.range' (r + 1) (n + 1 - 1) =
          (r + 1) :: List.range' (r + 2) (n - 1) := by
        have : n + 1 - 1 = (n - 1) + 1 := by omega
        rw [this, List.range'_succ]
      rw [hr]
      simp
    · have hn : n = 0 := by omega
      rw [if_neg hlt, ih (r + 1) _ (by omega)]
      subst hn
      simp

/-- Helper: the connect loop succeeds exactly when some attempt within the
remaining budget succeeds. -/
theorem mongoConnectGo_ok_iff (f : Nat → Bool) (m : Nat) :
    ∀ (fuel r : Nat) (d : List Nat),
      ((Adapters.mongoConnectGo f m fuel r d).1 = true ↔
        ∃ k, r ≤ k ∧ k < r + fuel ∧ f k = true) := by
  intro fuel
  induction fuel with
  | zero =>
    intro r d
    simp only [Adapters.mongoConnectGo]
    constructor
    · intro h; exact absurd h (by decide)
    · rintro ⟨k, h1, h2, -⟩; omega
  | succ n ih =>
    intro r d
    rw [Adapters.mongoConnectGo]
    by_cases hr : f r = true
    · rw [hr]
      simp only [if_true]
      constructor
      · intro _; exact ⟨r, le_refl r, by omega, hr⟩
      · intro _; trivial
    · rw [Bool.not_eq_true] at hr
      rw [hr]
      simp only [Bool.false_eq_true, if_false]
      rw [ih (r + 1)]
      constructor
      · rintro ⟨k, h1, h2, h3⟩; exact ⟨k, by omega, by omega, h3⟩
      · rintro ⟨k, h1, h2, h3⟩
        refine ⟨k, ?_, by omega, h3⟩
        rcases Nat.eq_or_lt_of_le h1 with heq | hlt
        · subst heq; rw [h3] at hr; cases hr
        · omega

/-- C9 counterexample: with all attempts failing and the default-equal
`maxRetries = 3`, the sleeps between attempts are 2000 ms then 4000 ms — the
first delay is two seconds, not the one second the claim states. -/
theorem c9_first_delay_is_two_seconds :
    Adapters.mongoConnect (some 3) (fun _ => false) =
      (Except.error ("Failed to connect to MongoDB after 3 attempts"), [2000, 4000]) ∧
    (2000 : Nat) ≠ 1000 := by
  exact ⟨by decide, by decide⟩

/-- C9 (amended): `connect` makes up to `maxRetries` attempts
(`config.maxRetries || 3`); when all fail it raises the connection error
after sleeping `2^1·1000, 2^2·1000, …` ms between consecutive attempts — an
exponentially doubling delay starting at 2 seconds, not 1 — and it succeeds
exactly when some attempt within the budget succeeds. -/
theorem c9_amended_connect_retry :
    (∀ (cfg : Option Int) (f : Nat → Bool), (∀ k, f k = false) →
      Adapters.mongoConnect cfg f =
        (Except.error (("Failed to connect to MongoDB after ") ++
           toString ((jsOr cfg 3).toNat) ++ (" attempts")),
         (List.range' 1 ((jsOr cfg 3).toNat - 1)).map fun k => 2 ^ k * 1000)) ∧
    (∀ (cfg : Option Int) (f : Nat → Bool),
      ((Adapters.mongoConnect cfg f).1 = Except.ok () ↔
        ∃ k, k < (jsOr cfg 3).toNat ∧ f k = true)) := by
  constructor
  · intro cfg f hf
    rw [Adapters.mongoConnect]
    rw [mongoConnectGo_allFail f _ hf _ 0 [] (by omega)]
    simp
  · intro cfg f
    rw [Adapters.mongoConnect]
    have h := mongoConnectGo_ok_iff f ((jsOr cfg 3).toNat) ((jsOr cfg 3).toNat) 0 []
    by_cases hb : (Adapters.mongoConnectGo f ((jsOr cfg 3).toNat)
        ((jsOr cfg 3).toNat) 0 []).1 = true
    · rw [hb] at h ⊢
      simp only [if_true]
      constructor
      · intro _
        obtain ⟨k, -, h2, h3⟩ := h.mp rfl
        exact ⟨k, by omega, h3⟩
      · intro _; trivial
    · rw [Bool.not_eq_true] at hb
      rw [hb] at h ⊢
      simp only [Bool.false_eq_true, if_false]
      constructor
      · intro hc; cases hc
      · rintro ⟨k, h2, h3⟩
        have : (false : Bool) = true := h.mpr ⟨k, by omega, by omega, h3⟩
        cases this

/-- C9 witness: the amended statement applied with no configured
`maxRetries` (default 3) and always-failing attempts. -/
theorem c9_amended_connect_retry_witness :
    Adapters.mongoConnect none (fun _ => false) =
      (Except.error (("Failed to connect to MongoDB after ") ++
         toString ((jsOr none 3).toNat) ++ (" attempts")),
       (List.range' 1 ((jsOr (none : Option Int) 3).toNat - 1)).map fun k => 2 ^ k * 1000) :=
  c9_amended_connect_retry.1 none (fun _ => false) (fun _ => rfl)

/-- Helper: the PostgreSQL pagination block ignores an offset of `0`. -/
theorem pgPaginationClause_offset_zero (p : PaginationParams) (pc : Nat) :
    Dal.pgPaginationClause (some { p with offset := some 0 }) pc =
      Dal.pgPaginationClause (some { p with offset := none }) pc := by
  simp [Dal.pgPaginationClause]

/-- Helper: the PostgreSQL pagination block ignores a limit of `0`. -/
theorem pgPaginationClause_limit_zero (p : PaginationParams) (pc : Nat) :
    Dal.pgPaginationClause (some { p with limit := some 0 }) pc =
      Dal.pgPaginationClause (some { p with limit := none }) pc := by
  simp [Dal.pgPaginationClause]

/-- Helper: the MySQL pagination block ignores an offset of `0`. -/
theorem myPaginationClause_offset_zero (p : PaginationParams) :
    Dal.myPaginationClause (some { p with offset := some 0 }) =
      Dal.myPaginationClause (some { p with offset := none }) := by
  simp [Dal.myPaginationClause]

/-- Helper: the MySQL pagination block ignores a limit of `0`. -/
theorem myPaginationClause_limit_zero (p : PaginationParams) :
    Dal.myPaginationClause (some { p with limit := some 0 }) =
      Dal.myPaginationClause (some { p with limit := none }) := by
  simp [Dal.myPaginationClause]

/-- Helper: the MongoDB pagination stages ignore an offset of `0`. -/
theorem mongoPaginationStages_offset_zero (p : PaginationParams) :
    Dal.mongoPaginationStages (some { p with offset := some 0 }) =
      Dal.mongoPaginationStages (some { p with offset := none }) := by
  simp [Dal.mongoPaginationStages]

/-- Helper: the MongoDB pagination stages ignore a limit of `0`. -/
theorem mongoPaginationStages_limit_zero (p : PaginationParams) :
    Dal.mongoPaginationStages (some { p with limit := some 0 }) =
      Dal.mongoPaginationStages (some { p with limit := none }) := by
  simp [Dal.mongoPaginationStages]

/-- C10: in all three external adapters a pagination value of `0` behaves as
unset: `offset = 0` produces the same SQL/parameters (respectively the same
aggregation pipeline) as no offset, and `limit = 0` the same as no limit, so
the corresponding `OFFSET`/`LIMIT` clause or `$skip`/`$limit` stage is
omitted entirely. -/
theorem c10_zero_pagination_is_unset :
    (∀ (lqp : Dal.LogicalQueryPlan) (p : PaginationParams),
      Dal.pgTranslateLQPToSQL { lqp with pagination := some { p with offset := some 0 } } =
        Dal.pgTranslateLQPToSQL { lqp with pagination := some { p with offset := none } } ∧
      Dal.pgTranslateLQPToSQL { lqp with pagination := some { p with limit := some 0 } } =
        Dal.pgTranslateLQPToSQL { lqp with pagination := some { p with limit := none } }) ∧
    (∀ (lqp : Dal.LogicalQueryPlan) (p : PaginationParams),
      Dal.myTranslateLQPToSQL { lqp with pagination := some { p with offset := some 0 } } =
        Dal.myTranslateLQPToSQL { lqp with pagination := some { p with offset := none } } ∧
      Dal.myTranslateLQPToSQL { lqp with pagination := some { p with limit := some 0 } } =
        Dal.myTranslateLQPToSQL { lqp with pagination := some { p with limit := none } }) ∧
    (∀ (lqp : Dal.LogicalQueryPlan) (p : PaginationParams),
      Dal.mongoTranslateLQPToAggregation
          { lqp with pagination := some { p with offset := some 0 } } =
        Dal.mongoTranslateLQPToAggregation
          { lqp with pagination := some { p with offset := none } } ∧
      Dal.mongoTranslateLQPToAggregation
          { lqp with pagination := some { p with limit := some 0 } } =
        Dal.mongoTranslateLQPToAggregation
          { lqp with pagination := some { p with limit := none } }) := by
  refine ⟨fun lqp p => ⟨?_, ?_⟩, fun lqp p => ⟨?_, ?_⟩, fun lqp p => ⟨?_, ?_⟩⟩
  · simp only [Dal.pgTranslateLQPToSQL, pgPaginationClause_offset_zero]
  · simp only [Dal.pgTranslateLQPToSQL, pgPaginationClause_limit_zero]
  · simp only [Dal.myTranslateLQPToSQL, myPaginationClause_offset_zero]
  · simp only [Dal.myTranslateLQPToSQL, myPaginationClause_limit_zero]
  · simp only [Dal.mongoTranslateLQPToAggregation, mongoPaginationStages_offset_zero]
  · simp only [Dal.mongoTranslateLQPToAggregation, mongoPaginationStages_limit_zero]

/-- C6: `buildSqlFromLqp` appends the pagination bounds — `limit` defaulting
to 10 and `offset` defaulting to 0 via `||` — as the final positional
parameters after the shared filter parameters, and for a table whose live
(non-soft-deleted) row count is 25, `{limit: 10, offset: 20}` yields 5 rows
with `hasMore = false` while `{limit: 10, offset: 0}` yields 10 rows with
`hasMore = true` (for any row order the ORDER BY produces). -/
theorem c6_pagination_defaults_and_hasmore :
    (∀ (t : String) (cols : List Internal.TableColumn) (lqp : Internal.Lqp),
      (Internal.buildSqlFromLqp t cols lqp).params =
        (Internal.buildSqlFromLqp t cols lqp).countParams ++
          [JsValue.int (jsOr (lqp.pagination.bind fun p => p.limit) 10),
           JsValue.int (jsOr (lqp.pagination.bind fun p => p.offset) 0)]) ∧
    (∀ (tbl : List Internal.Row) (sorted : List Internal.Row → List Internal.Row),
      (∀ l, (sorted l).length = l.length) →
      ∀ r, Internal.executeQuery tbl (fun _ => true) sorted Internal.pageLqp20 =
          Except.ok r → r.total = 25 → r.rows.length = 5 ∧ r.hasMore = false) ∧
    (∀ (tbl : List Internal.Row) (sorted : List Internal.Row → List Internal.Row),
      (∀ l, (sorted l).length = l.length) →
      ∀ r, Internal.executeQuery tbl (fun _ => true) sorted Internal.pageLqp0 =
          Except.ok r → r.total = 25 → r.rows.length = 10 ∧ r.hasMore = true) := by
  refine ⟨fun t cols lqp => rfl, ?_, ?_⟩
  · intro tbl sorted hlen r hok htot
    rw [Internal.executeQuery, if_neg (by decide)] at hok
    obtain rfl := Except.ok.inj hok
    dsimp only at htot ⊢
    constructor
    · rw [List.length_take, List.length_drop, hlen, htot]
      decide
    · rw [List.length_take, List.length_drop, hlen, htot]
      decide
  · intro tbl sorted hlen r hok htot
    rw [Internal.executeQuery, if_neg (by decide)] at hok
    obtain rfl := Except.ok.inj hok
    dsimp only at htot ⊢
    constructor
    · rw [List.length_take, List.length_drop, hlen, htot]
      decide
    · rw [List.length_take, List.length_drop, hlen, htot]
      decide

/-- C6 witness: the 25-row table `tbl25` with the identity order. -/
theorem c6_pagination_witness :
    Internal.executeQuery Internal.tbl25 (fun _ => true) id Internal.pageLqp20 =
        Except.ok Internal.page20Result ∧
    Internal.page20Result.rows.length = 5 ∧ Internal.page20Result.hasMore = false ∧
    Internal.executeQuery Internal.tbl25 (fun _ => true) id Internal.pageLqp0 =
        Except.ok Internal.page0Result ∧
    Internal.page0Result.rows.length = 10 ∧ Internal.page0Result.hasMore = true := by
  have h20 : Internal.executeQuery Internal.tbl25 (fun _ => true) id Internal.pageLqp20 =
      Except.ok Internal.page20Result := by decide
  have h0 : Internal.executeQuery Internal.tbl25 (fun _ => true) id Internal.pageLqp0 =
      Except.ok Internal.page0Result := by decide
  have a20 := c6_pagination_defaults_and_hasmore.2.1 Internal.tbl25 id (fun l => rfl)
    Internal.page20Result h20 (by decide)
  have a0 := c6_pagination_defaults_and_hasmore.2.2 Internal.tbl25 id (fun l => rfl)
    Internal.page0Result h0 (by decide)
  exact ⟨h20, a20.1, a20.2, h0, a0.1, a0.2⟩

/-- C4: row update is optimistic — every successful `RowsService.update`
returns a row whose version is exactly the stored version plus one, and
succeeds only if the stored row is live with the expected version (when one
was supplied); concretely, a row at version 1 updated with expected version
1 returns version 2, and replaying the same update with the now-stale
version 1 matches zero rows and surfaces `ConflictException` (the statement
runs exactly once — no retry). -/
theorem c4_optimistic_concurrency_update :
    (∀ (svc : Rows.ColumnsSvc) (db : List Rows.Row) (columns : List Rows.Column)
       (rowId userId : String) (dto : Rows.UpdateRowDto) (row : Rows.Row)
       (newDb : List Rows.Row),
      Rows.update svc db columns rowId userId dto = Except.ok (row, newDb) →
      ∃ old, old ∈ db ∧ old.id = rowId ∧ old.deletedAt = none ∧
        (dto.version = none ∨ dto.version = some old.version) ∧
        row.version = old.version + 1) ∧
    (Rows.update Rows.svcId Rows.dbV1 [] ("r1") ("u1") Rows.dtoV1 =
        Except.ok (Rows.rowV2, [Rows.rowV2]) ∧
      Rows.rowV2.version = 2 ∧
      Rows.update Rows.svcId [Rows.rowV2] [] ("r1") ("u2") Rows.dtoV1 =
        Except.error ("Row was modified by another user. Please refresh and try again.")) := by
  constructor
  · intro svc db columns rowId userId dto row newDb hok
    rw [Rows.update] at hok
    match hfind : Rows.findOne db rowId with
    | .error e => rw [hfind] at hok; cases hok
    | .ok currentRow =>
      rw [hfind] at hok
      dsimp only at hok
      match hval : Rows.validateAndCoerceRowData svc columns
          (Rows.mergeData currentRow.data dto.data) true with
      | .error e => rw [hval] at hok; cases hok
      | .ok validatedData =>
        rw [hval] at hok
        dsimp only at hok
        match hfl : db.filter (Rows.updateHit rowId dto.version) with
        | [] => rw [hfl] at hok; simp at hok
        | o :: os =>
          rw [hfl] at hok
          simp only [List.map] at hok
          obtain ⟨hrow, -⟩ := Prod.mk.inj (Except.ok.inj hok)
          have hmem : o ∈ db.filter (Rows.updateHit rowId dto.version) := by
            rw [hfl]; exact List.mem_cons_self o os
          rw [List.mem_filter] at hmem
          obtain ⟨hdb, hhit⟩ := hmem
          simp only [Rows.updateHit, Bool.and_eq_true, decide_eq_true_eq] at hhit
          obtain ⟨⟨hid, hdel⟩, hver⟩ := hhit
          refine ⟨o, hdb, hid, hdel, ?_, ?_⟩
          · match hv : dto.version with
            | none => exact Or.inl rfl
            | some v =>
              rw [hv] at hver
              simp only [decide_eq_true_eq] at hver
              exact Or.inr (by rw [hver])
          · rw [← hrow]
            rfl
  · refine ⟨by decide, by decide, by decide⟩

/-- C4 witness: the general version-increment statement applied to the
concrete version-1 scenario. -/
theorem c4_optimistic_concurrency_update_witness :
    ∃ old, old ∈ Rows.dbV1 ∧ old.id = ("r1") ∧ old.deletedAt = none ∧
      (Rows.dtoV1.version = none ∨ Rows.dtoV1.version = some old.version) ∧
      Rows.rowV2.version = old.version + 1 :=
  c4_optimistic_concurrency_update.1 Rows.svcId Rows.dbV1 [] ("r1") ("u1") Rows.dtoV1
    Rows.rowV2 [Rows.rowV2] (by decide)

/-- Helper: `applyJsonbFilters` treats a leaf whose field matches no column
exactly as if the leaf were absent (no condition, no parameters, no index
shift), wherever the leaf sits. -/
theorem applyJsonbFilters_skip_unknown (cols : List Internal.TableColumn)
    (f : Internal.FilterExpression) (hf : Internal.findColumn cols f.field = none) :
    ∀ (fs1 fs2 : List Internal.FilterExpression) (i : Nat),
      Internal.applyJsonbFilters (fs1 ++ f :: fs2) cols i =
        Internal.applyJsonbFilters (fs1 ++ fs2) cols i := by
  intro fs1
  induction fs1 with
  | nil =>
    intro fs2 i
    rw [List.nil_append, List.nil_append]
    rw [Internal.applyJsonbFilters]
    rw [hf]
  | cons g gs ih =>
    intro fs2 i
    rw [List.cons_append, List.cons_append]
    rw [Internal.applyJsonbFilters, Internal.applyJsonbFilters]
    simp only [ih]

/-- Helper: the same skip property for `applyJsonbSorts`. -/
theorem applyJsonbSorts_skip_unknown (cols : List Internal.TableColumn)
    (s0 : Internal.SortExpression) (hs : Internal.findColumn cols s0.field = none) :
    ∀ (ss1 ss2 : List Internal.SortExpression),
      Internal.applyJsonbSorts (ss1 ++ s0 :: ss2) cols =
        Internal.applyJsonbSorts (ss1 ++ ss2) cols := by
  intro ss1
  induction ss1 with
  | nil =>
    intro ss2
    rw [List.nil_append, List.nil_append]
    rw [Internal.applyJsonbSorts]
    rw [hs]
  | cons g gs ih =>
    intro ss2
    rw [List.cons_append, List.cons_append]
    rw [Internal.applyJsonbSorts, Internal.applyJsonbSorts]
    simp only [ih]

/-- C5 counterexample: when the *only* sort entry references an unknown
field, the generated data statement is not the one produced with the sort
removed — the unknown-sort query has no ORDER BY clause at all, while the
sort-free query gets the default `ORDER BY created_at DESC`. -/
theorem c5_sole_unknown_sort_changes_statement :
    Internal.findColumn Internal.cCols (("zz")) = none ∧
    Internal.cSortUnknownLqp =
      { Internal.cSortEmptyLqp with
          sorts := some [{ field := ("zz"), direction := SortDir.asc }] } ∧
    (Internal.buildSqlFromLqp (("phys_t")) Internal.cCols Internal.cSortUnknownLqp).query ≠
      (Internal.buildSqlFromLqp (("phys_t")) Internal.cCols Internal.cSortEmptyLqp).query := by
  exact ⟨by decide, by decide, by decide⟩

/-- C5 (amended): a filter leaf whose field matches no column is silently
skipped — the count and data statements (queries and parameter lists) are
identical to those of the same LQP with the leaf removed, in every position;
the same holds for an unknown-field sort entry *provided the remaining sort
list is non-empty*.  (When the unknown sort was the only entry, the two
statements differ: no ORDER BY versus the default `ORDER BY created_at
DESC`.) -/
theorem c5_amended_unknown_field_skipped :
    (∀ (t : String) (cols : List Internal.TableColumn) (lqp : Internal.Lqp)
       (f : Internal.FilterExpression)
       (fs1 fs2 : List Internal.FilterExpression),
      Internal.findColumn cols f.field = none →
      Internal.buildSqlFromLqp t cols { lqp with filters := some (fs1 ++ f :: fs2) } =
        Internal.buildSqlFromLqp t cols { lqp with filters := some (fs1 ++ fs2) }) ∧
    (∀ (t : String) (cols : List Internal.TableColumn) (lqp : Internal.Lqp)
       (s0 : Internal.SortExpression)
       (ss1 ss2 : List Internal.SortExpression),
      Internal.findColumn cols s0.field = none → ss1 ++ ss2 ≠ [] →
      Internal.buildSqlFromLqp t cols { lqp with sorts := some (ss1 ++ s0 :: ss2) } =
        Internal.buildSqlFromLqp t cols { lqp with sorts := some (ss1 ++ ss2) }) := by
  constructor
  · intro t cols lqp f fs1 fs2 hf
    simp only [Internal.buildSqlFromLqp]
    rw [applyJsonbFilters_skip_unknown cols f hf]
    have hlen1 : (fs1 ++ f :: fs2).length > 0 := by simp
    rw [if_pos hlen1]
    by_cases h2 : (fs1 ++ fs2).length > 0
    · rw [if_pos h2]
    · rw [if_neg h2]
      have hnil : fs1 ++ fs2 = [] := List.eq_nil_of_length_eq_zero (by omega)
      rw [hnil]
      rw [Internal.applyJsonbFilters]
      simp
  · intro t cols lqp s0 ss1 ss2 hs hne
    simp only [Internal.buildSqlFromLqp]
    rw [applyJsonbSorts_skip_unknown cols s0 hs]
    have h1 : (ss1 ++ s0 :: ss2).length > 0 := by simp
    have h2 : (ss1 ++ ss2).length > 0 := by
      cases h : ss1 ++ ss2 with
      | nil => exact absurd h hne
      | cons a l => simp [h]
    rw [if_pos h1, if_pos h2]

/-- C5 witness: the amended statement applied to a concrete unknown filter
leaf and to an unknown sort accompanied by a known one. -/
theorem c5_amended_unknown_field_skipped_witness :
    (Internal.findColumn Internal.cCols (("zz")) = none ∧
      Internal.buildSqlFromLqp (("phys_t")) Internal.cCols
          { Internal.cInLqp1 with
              filters := some ([] ++
                { field := ("zz"), operator := Internal.FilterOp.eq,
                  value := JsValue.int 1 } :: [Internal.cInF1]) } =
        Internal.buildSqlFromLqp (("phys_t")) Internal.cCols
          { Internal.cInLqp1 with filters := some ([] ++ [Internal.cInF1]) }) ∧
    ([({ field := ("a"), direction := SortDir.asc } : Internal.SortExpression)] ++
        ([] : List Internal.SortExpression) ≠ [] ∧
      Internal.buildSqlFromLqp (("phys_t")) Internal.cCols
          { Internal.cSortEmptyLqp with
              sorts := some ([{ field := ("a"), direction := SortDir.asc }] ++
                { field := ("zz"), direction := SortDir.desc } :: []) } =
        Internal.buildSqlFromLqp (("phys_t")) Internal.cCols
          { Internal.cSortEmptyLqp with
              sorts := some ([{ field := ("a"), direction := SortDir.asc }] ++ []) }) :=
  ⟨⟨by decide,
    c5_amended_unknown_field_skipped.1 (("phys_t")) Internal.cCols Internal.cInLqp1
      { field := ("zz"), operator := Internal.FilterOp.eq, value := JsValue.int 1 }
      [] [Internal.cInF1] (by decide)⟩,
   ⟨by decide,
    c5_amended_unknown_field_skipped.2 (("phys_t")) Internal.cCols Internal.cSortEmptyLqp
      { field := ("zz"), direction := SortDir.desc }
      [{ field := ("a"), direction := SortDir.asc }] [] (by decide) (by decide)⟩⟩

/-- Helper: the emitted filter conditions — the SQL text — and the number of
bound parameters depend on the filters only through field, operator and
value shape (array-ness and array length), never through the values
themselves. -/
theorem applyJsonbFilters_shape (cols : List Internal.TableColumn) :
    ∀ {fs gs : List Internal.FilterExpression}, List.Forall₂ Internal.SameShape fs gs →
      ∀ i, (Internal.applyJsonbFilters fs cols i).1 =
          (Internal.applyJsonbFilters gs cols i).1 ∧
        (Internal.applyJsonbFilters fs cols i).2.length =
          (Internal.applyJsonbFilters gs cols i).2.length := by
  intro fs gs h
  induction h with
  | nil => intro i; exact ⟨rfl, rfl⟩
  | @cons f g fs2 gs2 hfg htl ih =>
    intro i
    obtain ⟨hfield, hop, hshape⟩ := hfg
    rw [Internal.applyJsonbFilters, Internal.applyJsonbFilters, ← hfield, ← hop]
    cases hcol : Internal.findColumn cols f.field with
    | none => exact ih i
    | some col =>
      cases hopv : f.operator with
      | eq =>
        refine ⟨?_, ?_⟩
        · dsimp only; rw [(ih (i + 1)).1]
        · dsimp only; rw [List.length_cons, List.length_cons, (ih (i + 1)).2]
      | ne =>
        refine ⟨?_, ?_⟩
        · dsimp only; rw [(ih (i + 1)).1]
        · dsimp only; rw [List.length_cons, List.length_cons, (ih (i + 1)).2]
      | gt =>
        refine ⟨?_, ?_⟩
        · dsimp only; rw [(ih (i + 1)).1]
        · dsimp only; rw [List.length_cons, List.length_cons, (ih (i + 1)).2]
      | gte =>
        refine ⟨?_, ?_⟩
        · dsimp only; rw [(ih (i + 1)).1]
        · dsimp only; rw [List.length_cons, List.length_cons, (ih (i + 1)).2]
      | lt =>
        refine ⟨?_, ?_⟩
        · dsimp only; rw [(ih (i + 1)).1]
        · dsimp only; rw [List.length_cons, List.length_cons, (ih (i + 1)).2]
      | lte =>
        refine ⟨?_, ?_⟩
        · dsimp only; rw [(ih (i + 1)).1]
        · dsimp only; rw [List.length_cons, List.length_cons, (ih (i + 1)).2]
      | like =>
        refine ⟨?_, ?_⟩
        · dsimp only; rw [(ih (i + 1)).1]
        · dsimp only; rw [List.length_cons, List.length_cons, (ih (i + 1)).2]
      | isIn =>
        rw [Internal.valueShape, Internal.valueShape] at hshape
        cases haf : f.value.asArr with
        | none =>
          have hag : g.value.asArr = none := by
            rw [haf] at hshape
            cases hg : g.value.asArr with
            | none => rfl
            | some ys => rw [hg] at hshape; simp at hshape
          rw [hag]
          exact ih i
        | some xs =>
          have hex : ∃ ys, g.value.asArr = some ys ∧ ys.length = xs.length := by
            rw [haf] at hshape
            cases hg : g.value.asArr with
            | none => rw [hg] at hshape; simp at hshape
            | some ys =>
              rw [hg] at hshape
              simp at hshape
              exact ⟨ys, rfl, hshape.symm⟩
          obtain ⟨ys, hag, hlen⟩ := hex
          rw [hag]
          refine ⟨?_, ?_⟩
          · dsimp only
            rw [hlen, (ih (i + xs.length)).1]
          · dsimp only
            rw [List.length_append, List.length_append, List.length_map,
              List.length_map, hlen, (ih (i + xs.length)).2]
      | between =>
        rw [Internal.valueShape, Internal.valueShape] at hshape
        cases haf : f.value.asArr with
        | none =>
          have hag : g.value.asArr = none := by
            rw [haf] at hshape
            cases hg : g.value.asArr with
            | none => rfl
            | some ys => rw [hg] at hshape; simp at hshape
          rw [hag]
          exact ih i
        | some xs =>
          have hex : ∃ ys, g.value.asArr = some ys ∧ ys.length = xs.length := by
            rw [haf] at hshape
            cases hg : g.value.asArr with
            | none => rw [hg] at hshape; simp at hshape
            | some ys =>
              rw [hg] at hshape
              simp at hshape
              exact ⟨ys, rfl, hshape.symm⟩
          obtain ⟨ys, hag, hlen⟩ := hex
          rw [hag]
          dsimp only
          rw [hlen]
          by_cases h2 : xs.length = 2
          · simp only [if_pos h2]
            refine ⟨?_, ?_⟩
            · dsimp only; rw [(ih (i + 2)).1]
            · dsimp only
              rw [List.length_append, List.length_append, List.length_take,
                List.length_take, hlen, (ih (i + 2)).2]
          · simp only [if_neg h2]
            exact ih i

/-- Helper: the bound-parameter list produced by `applyJsonbFilters` is
exactly the concatenation of each kept filter's values (stringified where
the source stringifies them), independent of the positional index. -/
theorem applyJsonbFilters_params_spec (cols : List Internal.TableColumn) :
    ∀ (fs : List Internal.FilterExpression) (i : Nat),
      (Internal.applyJsonbFilters fs cols i).2 =
        fs.flatMap (Internal.filterParamsSpec cols) := by
  intro fs
  induction fs with
  | nil => intro i; rfl
  | cons f rest ih =>
    intro i
    rw [Internal.applyJsonbFilters, List.flatMap_cons, Internal.filterParamsSpec]
    cases hcol : Internal.findColumn cols f.field with
    | none => dsimp only; rw [ih i, List.nil_append]
    | some col =>
      cases hopv : f.operator with
      | eq => dsimp only; rw [ih (i + 1), List.singleton_append]
      | ne => dsimp only; rw [ih (i + 1), List.singleton_append]
      | gt => dsimp only; rw [ih (i + 1), List.singleton_append]
      | gte => dsimp only; rw [ih (i + 1), List.singleton_append]
      | lt => dsimp only; rw [ih (i + 1), List.singleton_append]
      | lte => dsimp only; rw [ih (i + 1), List.singleton_append]
      | like => dsimp only; rw [ih (i + 1), List.singleton_append]
      | isIn =>
        cases haf : f.value.asArr with
        | none => dsimp only; rw [ih i, List.nil_append]
        | some xs => dsimp only; rw [ih (i + xs.length)]
      | between =>
        cases haf : f.value.asArr with
        | none => dsimp only; rw [ih i, List.nil_append]
        | some xs =>
          dsimp only
          by_cases h2 : xs.length = 2
          · simp only [if_pos h2]
            rw [ih (i + 2)]
          · simp only [if_neg h2]
            rw [ih i, List.nil_append]

/-- C1 counterexample: two LQPs identical except for one filter's value —
an `in` over `["x"]` versus `["x", "y"]` — produce different count and data
SQL strings, because the number of interpolated placeholders follows the
array length. -/
theorem c1_in_array_length_changes_sql :
    Internal.cInF1.field = Internal.cInF2.field ∧
    Internal.cInF1.operator = Internal.cInF2.operator ∧
    Internal.cInLqp1 = { Internal.cInLqp2 with filters := some [Internal.cInF1] } ∧
    (Internal.buildSqlFromLqp (("phys_t")) Internal.cCols Internal.cInLqp1).query ≠
      (Internal.buildSqlFromLqp (("phys_t")) Internal.cCols Internal.cInLqp2).query ∧
    (Internal.buildSqlFromLqp (("phys_t")) Internal.cCols Internal.cInLqp1).countQuery ≠
      (Internal.buildSqlFromLqp (("phys_t")) Internal.cCols Internal.cInLqp2).countQuery := by
  exact ⟨by decide, by decide, by decide, by decide, by decide⟩

/-- C1 (amended): the generated count and data SQL strings depend on the
filters only through their fields, operators and value *shapes* (array-ness
and array length — `in`/`between` interpolate one placeholder per element);
two LQPs identical except for shape-preserving changes of their filter/sort
values generate identical SQL text, and the values themselves surface only
in the bound-parameter list, in emission order. -/
theorem c1_amended_sql_independent_of_values :
    (∀ (t : String) (cols : List Internal.TableColumn) (src : Internal.Source)
       (fs gs : List Internal.FilterExpression)
       (sorts : Option (List Internal.SortExpression)) (pag : Option PaginationParams),
      List.Forall₂ Internal.SameShape fs gs →
      (Internal.buildSqlFromLqp t cols ⟨src, some fs, sorts, pag⟩).query =
        (Internal.buildSqlFromLqp t cols ⟨src, some gs, sorts, pag⟩).query ∧
      (Internal.buildSqlFromLqp t cols ⟨src, some fs, sorts, pag⟩).countQuery =
        (Internal.buildSqlFromLqp t cols ⟨src, some gs, sorts, pag⟩).countQuery) ∧
    (∀ (cols : List Internal.TableColumn) (fs : List Internal.FilterExpression) (i : Nat),
      (Internal.applyJsonbFilters fs cols i).2 =
        fs.flatMap (Internal.filterParamsSpec cols)) := by
  constructor
  · intro t cols src fs gs sorts pag h
    obtain ⟨hc, hp⟩ := applyJsonbFilters_shape cols h 1
    have hlen := h.length_eq
    simp only [Internal.buildSqlFromLqp]
    rw [← hlen, hc]
    by_cases h1 : fs.length > 0
    · simp only [if_pos h1]
      by_cases h2 : (Internal.applyJsonbFilters gs cols 1).1.length > 0
      · simp only [if_pos h2]
        rw [hp]
        exact ⟨rfl, trivial⟩
      · simp only [if_neg h2]
        exact ⟨trivial, trivial⟩
    · simp only [if_neg h1]
      exact ⟨trivial, trivial⟩
  · exact applyJsonbFilters_params_spec

/-- C1 witness: the amended statement applied to shape-equal `in` filters
with different one-element values. -/
theorem c1_amended_sql_independent_of_values_witness :
    (Internal.buildSqlFromLqp (("phys_t")) Internal.cCols
        ⟨Internal.cSource, some [Internal.cInF1], none, none⟩).query =
      (Internal.buildSqlFromLqp (("phys_t")) Internal.cCols
        ⟨Internal.cSource, some [Internal.cInF1b], none, none⟩).query :=
  (c1_amended_sql_independent_of_values.1 (("phys_t")) Internal.cCols Internal.cSource
    [Internal.cInF1] [Internal.cInF1b] none none
    (List.Forall₂.cons (by constructor <;> decide) List.Forall₂.nil)).1

/-- Helper: writing a list cell in bounds makes `get?` return the new value. -/
theorem listGet_set_self {α : Type} :
    ∀ (l : List α) (i : Nat) (x : α), i < l.length → (l.set i x).get? i = some x
  | [], i, x, h => absurd h (by simp)
  | _ :: _, 0, _, _ => rfl
  | _ :: l, i + 1, x, h => listGet_set_self l i x (by simpa using h)

/-- Helper: the builder operations that overwrite a field of `this.lqp`
(`select`, `paginate`) preserve the snapshot invariant and leave every
snapshot unreadable — unchanged — because the snapshot object lives at a
different address. -/
theorem snapInv_updateObj (s : Builder.State) (a : Nat) (f : Builder.LqpObj → Builder.LqpObj)
    (hfa : ∀ o, (f o).filtersAddr = o.filtersAddr)
    (hsa : ∀ o, (f o).sortsAddr = o.sortsAddr)
    (h : Builder.SnapInv s a) :
    Builder.SnapInv (Builder.updateObj s f) a ∧
      Builder.readPlan (Builder.updateObj s f) a = Builder.readPlan s a := by
  obtain ⟨bObj, sObj, hb, hbf, hbs, ha, hsf, hss, hba, hneF, hneS⟩ := h
  obtain ⟨hblt, -⟩ := List.get?_eq_some.mp hb
  rw [Builder.updateObj, hb]
  have hga : (s.objs.set s.builder (f bObj)).get? a = s.objs.get? a :=
    List.get?_set_ne (f bObj) s.objs hba
  constructor
  · refine ⟨f bObj, sObj, ?_, ?_, ?_, ?_, hsf, hss, hba, ?_, ?_⟩
    · exact listGet_set_self s.objs s.builder (f bObj) hblt
    · rw [hfa]; exact hbf
    · rw [hsa]; exact hbs
    · rw [hga]; exact ha
    · rw [hfa]; exact hneF
    · rw [hsa]; exact hneS
  · rw [Builder.readPlan, Builder.readPlan]
    rw [hga]

/-- Helper: `filter()` pushes into the builder's own filters cell, which the
invariant separates from the snapshot's cell. -/
theorem snapInv_filterPush (s : Builder.State) (a : Nat) (f : Dal.FilterExpression)
    (h : Builder.SnapInv s a) :
    Builder.SnapInv (Builder.filterPush s f) a ∧
      Builder.readPlan (Builder.filterPush s f) a = Builder.readPlan s a := by
  obtain ⟨bObj, sObj, hb, hbf, hbs, ha, hsf, hss, hba, hneF, hneS⟩ := h
  rw [Builder.filterPush, hb]
  dsimp only
  rw [List.get?_eq_get hbf]
  dsimp only
  have hcell : ∀ (x : List Dal.FilterExpression),
      ((s.filtersH.set bObj.filtersAddr x).get? sObj.filtersAddr) =
        s.filtersH.get? sObj.filtersAddr :=
    fun x => List.get?_set_ne x s.filtersH hneF
  constructor
  · refine ⟨bObj, sObj, hb, ?_, hbs, ha, ?_, hss, hba, hneF, hneS⟩
    · rw [List.length_set]; exact hbf
    · rw [List.length_set]; exact hsf
  · rw [Builder.readPlan, Builder.readPlan]
    dsimp only
    rw [ha]
    dsimp only
    rw [hcell]

/-- Helper: `sort()` likewise pushes into the builder's own sorts cell. -/
theorem snapInv_sortPush (s : Builder.State) (a : Nat) (e : Dal.SortExpression)
    (h : Builder.SnapInv s a) :
    Builder.SnapInv (Builder.sortPush s e) a ∧
      Builder.readPlan (Builder.sortPush s e) a = Builder.readPlan s a := by
  obtain ⟨bObj, sObj, hb, hbf, hbs, ha, hsf, hss, hba, hneF, hneS⟩ := h
  rw [Builder.sortPush, hb]
  dsimp only
  rw [List.get?_eq_get hbs]
  dsimp only
  have hcell : ∀ (x : List Dal.SortExpression),
      ((s.sortsH.set bObj.sortsAddr x).get? sObj.sortsAddr) =
        s.sortsH.get? sObj.sortsAddr :=
    fun x => List.get?_set_ne x s.sortsH hneS
  constructor
  · refine ⟨bObj, sObj, hb, hbf, ?_, ha, hsf, ?_, hba, hneF, hneS⟩
    · rw [List.length_set]; exact hbs
    · rw [List.length_set]; exact hss
  · rw [Builder.readPlan, Builder.readPlan]
    dsimp only
    rw [ha]
    dsimp only
    rw [hcell]

/-- Helper: `reset()` (the `from*` calls) allocates an entirely fresh
builder object and cells, touching nothing the snapshot references. -/
theorem snapInv_reset (s : Builder.State) (a : Nat) (src : Dal.Source)
    (h : Builder.SnapInv s a) :
    Builder.SnapInv (Builder.reset s src) a ∧
      Builder.readPlan (Builder.reset s src) a = Builder.readPlan s a := by
  obtain ⟨bObj, sObj, hb, hbf, hbs, ha, hsf, hss, hba, hneF, hneS⟩ := h
  obtain ⟨halt, -⟩ := List.get?_eq_some.mp ha
  rw [Builder.reset]
  have hga : ∀ x : Builder.LqpObj, (s.objs ++ [x]).get? a = s.objs.get? a :=
    fun x => List.get?_append halt
  have hgf : (s.filtersH ++ [[]]).get? sObj.filtersAddr =
      s.filtersH.get? sObj.filtersAddr := List.get?_append hsf
  have hgs : (s.sortsH ++ [[]]).get? sObj.sortsAddr =
      s.sortsH.get? sObj.sortsAddr := List.get?_append hss
  constructor
  · refine ⟨_, sObj, List.get?_concat_length s.objs _, ?_, ?_, ?_, ?_, ?_, ?_, ?_, ?_⟩
    · simp
    · simp
    · rw [hga]; exact ha
    · simp; omega
    · simp; omega
    · simp; omega
    · simp; omega
    · simp; omega
  · rw [Builder.readPlan, Builder.readPlan]
    dsimp only
    rw [hga, ha]
    dsimp only
    rw [hgf, hgs]

/-- Helper: a later `build()` only allocates; it cannot touch an existing
snapshot. -/
theorem snapInv_build (s : Builder.State) (a : Nat) (h : Builder.SnapInv s a) :
    Builder.SnapInv (Builder.build s).1 a ∧
      Builder.readPlan (Builder.build s).1 a = Builder.readPlan s a := by
  obtain ⟨bObj, sObj, hb, hbf, hbs, ha, hsf, hss, hba, hneF, hneS⟩ := h
  obtain ⟨hblt, -⟩ := List.get?_eq_some.mp hb
  obtain ⟨halt, -⟩ := List.get?_eq_some.mp ha
  rw [Builder.build, hb]
  dsimp only
  rw [List.get?_eq_get hbf, List.get?_eq_get hbs]
  dsimp only
  have hga : ∀ x : Builder.LqpObj, (s.objs ++ [x]).get? a = s.objs.get? a :=
    fun x => List.get?_append halt
  have hgb : ∀ x : Builder.LqpObj, (s.objs ++ [x]).get? s.builder = s.objs.get? s.builder :=
    fun x => List.get?_append hblt
  have hgf : ∀ x, (s.filtersH ++ [x]).get? sObj.filtersAddr =
      s.filtersH.get? sObj.filtersAddr := fun x => List.get?_append hsf
  have hgs : ∀ x, (s.sortsH ++ [x]).get? sObj.sortsAddr =
      s.sortsH.get? sObj.sortsAddr := fun x => List.get?_append hss
  constructor
  · refine ⟨bObj, sObj, ?_, ?_, ?_, ?_, ?_, ?_, hba, hneF, hneS⟩
    · rw [hgb]; exact hb
    · simp; omega
    · simp; omega
    · rw [hga]; exact ha
    · simp; omega
    · simp; omega
  · rw [Builder.readPlan, Builder.readPlan]
    dsimp only
    rw [hga, ha]
    dsimp only
    rw [hgf, hgs]

/-- Helper: every builder call preserves the invariant and the readable
content of a snapshot. -/
theorem snapInv_applyOp (s : Builder.State) (a : Nat) (op : Builder.Op)
    (h : Builder.SnapInv s a) :
    Builder.SnapInv (Builder.applyOp s op) a ∧
      Builder.readPlan (Builder.applyOp s op) a = Builder.readPlan s a := by
  cases op with
  | fromInternalTable t => exact snapInv_reset s a _ h
  | fromExternalConnection c t => exact snapInv_reset s a _ h
  | select fs => exact snapInv_updateObj s a _ (fun o => rfl) (fun o => rfl) h
  | paginate p => exact snapInv_updateObj s a _ (fun o => rfl) (fun o => rfl) h
  | filter f => exact snapInv_filterPush s a f h
  | sort e => exact snapInv_sortPush s a e h
  | build => exact snapInv_build s a h

/-- Helper: the same, for arbitrary call sequences. -/
theorem snapInv_applyOps (ops : List Builder.Op) :
    ∀ (s : Builder.State) (a : Nat), Builder.SnapInv s a →
      Builder.SnapInv (Builder.applyOps s ops) a ∧
        Builder.readPlan (Builder.applyOps s ops) a = Builder.readPlan s a := by
  induction ops with
  | nil => intro s a h; exact ⟨h, rfl⟩
  | cons op rest ih =>
    intro s a h
    obtain ⟨h1, h2⟩ := snapInv_applyOp s a op h
    obtain ⟨h3, h4⟩ := ih (Builder.applyOp s op) a h1
    exact ⟨h3, by rw [Builder.applyOps, h4, h2]⟩

/-- Helper: a `build()` on a well-formed builder establishes the invariant
for the returned snapshot address and the snapshot reads back exactly the
pending plan at build time. -/
theorem build_establishes (s : Builder.State) (h : Builder.Wf s) :
    Builder.SnapInv (Builder.build s).1 (Builder.build s).2 ∧
      Builder.readPlan (Builder.build s).1 (Builder.build s).2 =
        Builder.readPlan s s.builder := by
  obtain ⟨bObj, hb, hbf, hbs⟩ := h
  obtain ⟨hblt, -⟩ := List.get?_eq_some.mp hb
  rw [Builder.build, hb]
  dsimp only
  rw [List.get?_eq_get hbf, List.get?_eq_get hbs]
  dsimp only
  constructor
  · refine ⟨bObj, _, ?_, ?_, ?_, List.get?_concat_length s.objs _, ?_, ?_, ?_, ?_, ?_⟩
    · rw [List.get?_append hblt]; exact hb
    · simp; omega
    · simp; omega
    · simp
    · simp
    · dsimp only; omega
    · simp; omega
    · simp; omega
  · rw [Builder.readPlan, Builder.readPlan]
    rw [List.get?_concat_length s.objs _, hb]
    dsimp only
    rw [List.get?_concat_length, List.get?_concat_length]
    rw [List.get?_eq_get hbf, List.get?_eq_get hbs]

/-- C7: `build()` returns a deep, independent snapshot of the pending plan:
the snapshot reads back exactly the plan pending at build time, and no
subsequent sequence of builder calls (`select`, `filter`, `sort`,
`paginate`, `fromInternalTable`/`fromExternalConnection`, or further
`build`s) changes what the returned snapshot contains — the snapshot shares
no mutable heap cell with the builder. -/
theorem c7_build_returns_independent_snapshot :
    ∀ s : Builder.State, Builder.Wf s →
      Builder.readPlan (Builder.build s).1 (Builder.build s).2 =
          Builder.readPlan s s.builder ∧
      ∀ ops : List Builder.Op,
        Builder.readPlan (Builder.applyOps (Builder.build s).1 ops) (Builder.build s).2 =
          Builder.readPlan (Builder.build s).1 (Builder.build s).2 := by
  intro s h
  obtain ⟨hinv, hread⟩ := build_establishes s h
  exact ⟨hread, fun ops => (snapInv_applyOps ops (Builder.build s).1 (Builder.build s).2 hinv).2⟩

/-- C7 witness: a fresh builder, one `build()`, then a mutating `filter`
call — the snapshot is unchanged. -/
theorem c7_build_returns_independent_snapshot_witness :
    Builder.readPlan
        (Builder.applyOps (Builder.build Builder.initState).1
          [Builder.Op.filter (Dal.FilterExpression.mk (some ("x"))
            Dal.FilterOperator.eq (JsValue.int 5) [])])
        (Builder.build Builder.initState).2 =
      Builder.readPlan (Builder.build Builder.initState).1
        (Builder.build Builder.initState).2 :=
  (c7_build_returns_independent_snapshot Builder.initState
      ⟨{ source := { type := Internal.SourceType.internal_table, tableId := ("") },
         fields := [], filtersAddr := 0, sortsAddr := 0, pagination := {} },
       rfl, by decide, by decide⟩).2
    [Builder.Op.filter (Dal.FilterExpression.mk (some ("x"))
      Dal.FilterOperator.eq (JsValue.int 5) [])]

end LiveTables
